import Mathlib

/-!
Shallow embedding of `pdf_generation/resume_pdf_generator.py`
(class `ResumePDFGenerator`) from the Resume-Fit-GPT repository.

Rows of the output table are lists of cells; a cell records the paragraph
content, the name of the paragraph style it is rendered with, and the
optional bullet glyph.  Style directives mirror reportlab `TableStyle`
tuples `(command, (col0, row0), (col1, row1), args)`; the coordinate `-1`
is reportlab's relative index counting from the end of the grid, so row
coordinates are integers.  Fallible dictionary / list accesses of the
Python code are modelled in `Except`, with the error carrying the
accumulator state at the moment the exception is raised (Python raises
`KeyError` / `IndexError` and the in-progress lists are abandoned; no
output file is written on the error path, since `doc.build` is the last
statement of `generate_resume`).
-/

namespace ResumeGen

/-- Python exception kinds raised by the record accesses in the generator. -/
inductive PyErr where
  | keyError (key : String)
  | indexError
deriving Repr, DecidableEq

/-! ### Python `str.replace` (replace **all** occurrences, left to right) -/

/-- `isPrefixChars p l` : does the character list `p` start the list `l`? -/
def isPrefixChars : List Char → List Char → Bool
  | [], _ => true
  | _ :: _, [] => false
  | p :: ps, c :: cs => p == c && isPrefixChars ps cs

/-- One left-to-right pass of Python's `str.replace`: scan the list; on a
match of `pat`, emit `repl` and skip the matched characters (`skip` counts
characters of a match still to be consumed); occurrences created by a
replacement are not rescanned, exactly as in CPython. -/
def replaceGo (pat repl : List Char) : List Char → Nat → List Char
  | [], _ => []
  | _ :: rest, Nat.succ skip => replaceGo pat repl rest skip
  | c :: rest, 0 =>
    if isPrefixChars pat (c :: rest) then
      repl ++ replaceGo pat repl rest (pat.length - 1)
    else
      c :: replaceGo pat repl rest 0

/-- Python `s.replace(pat, repl)` (for nonempty `pat`, the only use here). -/
def pyReplace (s pat repl : String) : String :=
  String.mk (replaceGo pat.data repl.data s.data 0)

/-- `occursIn pat l` : does `pat` occur as a contiguous sublist of `l`? -/
def occursIn (pat : List Char) : List Char → Bool
  | [] => isPrefixChars pat []
  | c :: rest => isPrefixChars pat (c :: rest) || occursIn pat rest

/-- `clean_url` from `generate_resume` (lines 278-281): three chained
Python `str.replace` calls, i.e. replace-all of `https://`, then
`http://`, then `www.`, anywhere in the string. -/
def cleanUrl (url : String) : String :=
  pyReplace (pyReplace (pyReplace url "https://" "") "http://" "") "www." ""

/-- The spec's reading of `clean_url` ("strips the prefixes `https://`,
`http://`, and `www.` in that fixed order, each applied once and
non-recursively, not removing further occurrences elsewhere in the
string"): drop each pattern only when it is a leading segment of the
string. Stated for comparison with `cleanUrl`, which is the code's
behaviour. -/
def dropLeading (pat s : String) : String :=
  if isPrefixChars pat.data s.data then String.mk (s.data.drop pat.data.length) else s

/-- Spec-side prefix-stripping model of URL cleaning (see `dropLeading`). -/
def cleanUrlSpecModel (url : String) : String :=
  dropLeading "www." (dropLeading "http://" (dropLeading "https://" url))

/-! ### Data model of the resume record (§3 of the spec, as read by the code) -/

/-- One entry of `job["titles"]`. -/
structure Title where
  name : String
  startdate : String
  enddate : String
deriving Repr, DecidableEq

/-- One element of `data["experiences"]`. -/
structure Experience where
  company : String
  location : String
  titles : List Title
  highlights : List String
deriving Repr, DecidableEq

/-- One entry of `edu["degrees"]`. -/
structure Degree where
  names : List String
deriving Repr, DecidableEq

/-- One element of `data["education"]`. -/
structure EducationEntry where
  school : String
  degrees : List Degree
deriving Repr, DecidableEq

/-- A value stored in a skill-group mapping: the first key's value is a
string label, the second key's value is a list of skill names (Python is
untyped; both shapes occur in the same dict). -/
inductive SkillValue where
  | vstr (s : String)
  | vlist (l : List String)
deriving Repr, DecidableEq

/-- A skill group: a Python dict in insertion order, i.e. an association
list of key/value pairs (`list(group.keys())` is the key order). -/
abbrev SkillGroup := List (String × SkillValue)

/-- One element of `data["basic"]["websites"]`. -/
structure Website where
  icon : String
  url : String
deriving Repr, DecidableEq

/-- `data["basic"]`.  The keys the spec lists as required (`name`,
`contact.email`, `contact.phone`) are `Option`s so that records missing
them are representable; `websites` and `address` are always present. -/
structure Basic where
  name : Option String
  contact_email : Option String
  contact_phone : Option String
  websites : List Website
  address : List String
deriving Repr, DecidableEq

/-- The whole resume record passed to `generate_resume` as `data`. -/
structure Record where
  basic : Basic
  objective : Option String
  experiences : Option (List Experience)
  education : Option (List EducationEntry)
  skills : Option (List SkillGroup)
  debug : Bool
deriving Repr, DecidableEq

/-! ### Rows and style directives -/

/-- One table cell: a reportlab `Paragraph(content, style)` with an
optional bullet glyph (`bulletText`).  The style is recorded by its name
in `resume_pdf_styles.PARAGRAPH_STYLES`. -/
structure Cell where
  content : String
  style : String
  bullet : Option String
deriving Repr, DecidableEq

/-- One row of `table_data`. -/
abbrev Row := List Cell

/-- One reportlab `TableStyle` tuple `(cmd, (startCol, startRow),
(endCol, endRow), args...)`; `-1` coordinates count from the end. -/
structure Directive where
  cmd : String
  startCol : Int
  startRow : Int
  endCol : Int
  endRow : Int
  args : List String
deriving Repr, DecidableEq

/-- The accumulator threaded through `generate_resume`: the `table_data`
and `table_styles` lists. -/
structure TState where
  tableData : List Row
  tableStyles : List Directive
deriving Repr, DecidableEq

/-- Modelled from the spec: `DEFAULT_PADDING` lives in
`resume_pdf_styles` (not under `src/`); `_add_table_row`'s docstring
states the padding default is `(1, 1)` and §4.1 calls it "default uniform
minimal padding". -/
def DEFAULT_PADDING : Nat × Nat := (1, 1)

/-- Modelled from the spec: `FONT_NAMES` lives in `resume_pdf_styles`
(not under `src/`); §6 describes a font-name registry mapping logical
roles such as "bold" to registered font identifiers.  The concrete
identifier is irrelevant to every claim; a fixed name stands in for it. -/
def FONT_NAMES_bold : String := "FontBold"

/-- Modelled from the spec: `DOCUMENT_ALIGNMENT` lives in
`resume_pdf_styles` (not under `src/`); §3/§6 describe it as a global
alignment directive over the whole row grid. -/
def DOCUMENT_ALIGNMENT : List Directive :=
  [⟨"ALIGN", 0, 0, -1, -1, ["LEFT"]⟩]

/-- Modelled from the spec: `DEBUG_STYLE` lives in `resume_pdf_styles`
(not under `src/`); §6 describes it as a visible grid overlaid on the
whole table region when `debug` is set. -/
def DEBUG_STYLE : Directive := ⟨"GRID", 0, 0, -1, -1, ["0.5", "grey"]⟩

/-- Modelled from the spec: `generate_doc_template` lives in
`resume_pdf_styles` (not under `src/`); §4.3 says the builder returns the
resolved output file path derived from the name and the caller-supplied
location.  Claims never inspect its value. -/
def generateDocTemplate (name jobDataLocation : String) : String :=
  jobDataLocation ++ "/" ++ name ++ ".pdf"

/-- `_append_section_table_style` (lines 47-61): the three heading
directives scoped to `row_index`. -/
def appendSectionTableStyle (tableStyles : List Directive) (rowIndex : Nat) :
    List Directive :=
  tableStyles ++
    [⟨"TOPPADDING", 0, rowIndex, 1, rowIndex, ["5"]⟩,
     ⟨"BOTTOMPADDING", 0, rowIndex, 1, rowIndex, ["2"]⟩,
     ⟨"LINEBELOW", 0, rowIndex, -1, rowIndex, ["0.1", "black"]⟩]

/-- `_add_table_row` (lines 63-108): append one row built from the
content/style map (with the bullet glyph when `bullet_point` is truthy —
Python's `if bullet_point:` is false for `None` and for the empty
string), extend `table_styles` with the row's bottom/top padding (and the
`SPAN` directive when requested), and return `row_index + 1`. -/
def addTableRow (s : TState) (rowIndex : Nat)
    (contentStyleMap : List (String × String)) (span : Bool)
    (padding : Nat × Nat) (bulletPoint : Option String) : TState × Nat :=
  let effBullet : Option String :=
    match bulletPoint with
    | none => none
    | some b => if b = "" then none else some b
  let row : Row := contentStyleMap.map (fun cs => ⟨cs.1, cs.2, effBullet⟩)
  let padStyles : List Directive :=
    [⟨"BOTTOMPADDING", 0, rowIndex, -1, rowIndex, [toString padding.1]⟩,
     ⟨"TOPPADDING", 0, rowIndex, -1, rowIndex, [toString padding.2]⟩]
  let spanStyles : List Directive :=
    if span then [⟨"SPAN", 0, rowIndex, 1, rowIndex, []⟩] else []
  (⟨s.tableData ++ [row], s.tableStyles ++ padStyles ++ spanStyles⟩, rowIndex + 1)

/-- A section step either returns the updated accumulator and next row
index, or the Python exception together with the accumulator state at the
moment it was raised. -/
abbrev SectionResult := Except (PyErr × TState) (TState × Nat)

/-- The highlight loop of `add_experiences` (lines 164-186): `i` is the
`enumerate` counter and `total` is `len(job["highlights"])`; the last
bullet (`i == total - 1`) gets style `last_bullet_point` and padding
`(5, 1)`, every other bullet gets `bullet_points` and `(0, 1)`; each row
spans both columns and carries the `•` glyph. -/
def addHighlightRows (s : TState) (rowIndex : Nat) (total i : Nat) :
    List String → TState × Nat
  | [] => (s, rowIndex)
  | bulletPoint :: rest =>
    let style := if i = total - 1 then "last_bullet_point" else "bullet_points"
    let padding : Nat × Nat := if i = total - 1 then (5, 1) else (0, 1)
    let (s', ri') :=
      addTableRow s rowIndex [(bulletPoint, style)] true padding (some "•")
    addHighlightRows s' ri' total (i + 1) rest

/-- The body of `add_experiences`'s job loop for one `job` (lines
131-186): build the duration string from `job["titles"][0]` (an
`IndexError` when `titles` is empty, raised before any row of this job is
appended), append the company/duration row, the title/location row, and
the highlight rows. -/
def addOneJob (s : TState) (rowIndex : Nat) (job : Experience) : SectionResult :=
  match job.titles with
  | [] => .error (.indexError, s)
  | t0 :: _ =>
    let duration := t0.startdate ++ "-" ++ t0.enddate
    let (s, rowIndex) := addTableRow s rowIndex
      [(job.company, "company_heading"), (duration, "company_duration")]
      false DEFAULT_PADDING none
    let (s, rowIndex) := addTableRow s rowIndex
      [(t0.name, "company_title"), (job.location, "company_location")]
      false DEFAULT_PADDING none
    .ok (addHighlightRows s rowIndex job.highlights.length 0 job.highlights)

/-- The `for idx, job in enumerate(experiences)` loop of
`add_experiences`. -/
def addJobs : TState → Nat → List Experience → SectionResult
  | s, ri, [] => .ok (s, ri)
  | s, ri, job :: rest =>
    match addOneJob s ri job with
    | .error e => .error e
    | .ok (s', ri') => addJobs s' ri' rest

/-- `add_experiences` (lines 110-188): the `Experience` heading row (with
the section heading directives on it) followed by the job rows. -/
def addExperiences (s : TState) (rowIndex : Nat) (experiences : List Experience) :
    SectionResult :=
  let (s, rowIndex) :=
    addTableRow s rowIndex [("Experience", "section")] true DEFAULT_PADDING none
  let s : TState :=
    ⟨s.tableData, appendSectionTableStyle s.tableStyles (rowIndex - 1)⟩
  addJobs s rowIndex experiences

/-- The body of `add_education`'s entry loop for one `edu` (lines
211-224): `edu["degrees"][0]["names"]` joined with `", "` (an
`IndexError` when `degrees` is empty), then one spanning row with the
school name in bold markup. -/
def addOneEducation (s : TState) (rowIndex : Nat) (edu : EducationEntry) :
    SectionResult :=
  match edu.degrees with
  | [] => .error (.indexError, s)
  | d0 :: _ =>
    let degrees := String.intercalate ", " d0.names
    let content := "<font name=\x27" ++ FONT_NAMES_bold ++ "\x27>" ++ edu.school
      ++ "</font>, " ++ degrees
    .ok (addTableRow s rowIndex [(content, "education")] true DEFAULT_PADDING none)

/-- The `for edu in education` loop of `add_education`. -/
def addEducationRows : TState → Nat → List EducationEntry → SectionResult
  | s, ri, [] => .ok (s, ri)
  | s, ri, edu :: rest =>
    match addOneEducation s ri edu with
    | .error e => .error e
    | .ok (s', ri') => addEducationRows s' ri' rest

/-- `add_education` (lines 190-225): the `Education` heading row (with
the section heading directives) followed by one row per entry. -/
def addEducation (s : TState) (rowIndex : Nat) (education : List EducationEntry) :
    SectionResult :=
  let (s, rowIndex) :=
    addTableRow s rowIndex [("Education", "section")] true DEFAULT_PADDING none
  let s : TState :=
    ⟨s.tableData, appendSectionTableStyle s.tableStyles (rowIndex - 1)⟩
  addEducationRows s rowIndex education

/-- Python dict lookup `group[key]` on the insertion-ordered association
list (keys of a dict are unique, so first match is the dict's value). -/
def dictGet (key : String) : List (String × SkillValue) → Option SkillValue
  | [] => none
  | (k, v) :: rest => if key = k then some v else dictGet key rest

/-- Python `str(v)` as it appears inside the f-string for the group
label; the label values in the data are strings. -/
def skillValueStr : SkillValue → String
  | .vstr s => s
  | .vlist l => "[" ++ String.intercalate ", " l ++ "]"

/-- Python `", ".join(v)`: joining a list joins its elements, joining a
string joins its characters. -/
def skillValueJoin : SkillValue → String
  | .vstr s => String.intercalate ", " (s.data.map (fun c => String.mk [c]))
  | .vlist l => String.intercalate ", " l

/-- The body of `add_skills`'s group loop for one `group` (lines
248-263): `group_keys = list(group.keys())`; `group_keys[0]` /
`group_keys[1]` raise `IndexError` when the mapping has fewer than two
keys; otherwise the first key's value is the bold label and the second
key's value is comma-joined, in one spanning row with padding `(2, 2)`. -/
def addOneSkillGroup (s : TState) (rowIndex : Nat) (group : SkillGroup) :
    SectionResult :=
  let groupKeys := (group : List (String × SkillValue)).map Prod.fst
  match groupKeys.get? 0 with
  | none => .error (.indexError, s)
  | some k0 =>
    match groupKeys.get? 1 with
    | none => .error (.indexError, s)
    | some k1 =>
      match dictGet k0 group with
      | none => .error (.keyError k0, s)
      | some skillType =>
        match dictGet k1 group with
        | none => .error (.keyError k1, s)
        | some skillsList =>
          let skillsStr := skillValueJoin skillsList
          let formattedSkills := "<font name=\x27" ++ FONT_NAMES_bold ++ "\x27>"
            ++ skillValueStr skillType ++ "</font>: " ++ skillsStr
          .ok (addTableRow s rowIndex [(formattedSkills, "skills")] true (2, 2) none)

/-- The `for group in skills` loop of `add_skills`. -/
def addSkillGroups : TState → Nat → List SkillGroup → SectionResult
  | s, ri, [] => .ok (s, ri)
  | s, ri, group :: rest =>
    match addOneSkillGroup s ri group with
    | .error e => .error e
    | .ok (s', ri') => addSkillGroups s' ri' rest

/-- `add_skills` (lines 227-264): the `Skills` heading row (with the
section heading directives) followed by one row per group. -/
def addSkills (s : TState) (rowIndex : Nat) (skills : List SkillGroup) :
    SectionResult :=
  let (s, rowIndex) :=
    addTableRow s rowIndex [("Skills", "section")] true DEFAULT_PADDING none
  let s : TState :=
    ⟨s.tableData, appendSectionTableStyle s.tableStyles (rowIndex - 1)⟩
  addSkillGroups s rowIndex skills

/-- `generate_resume` (lines 266-392), faithfully ordered: the
`basic` accesses (`email`, then `name`, then `phone`) happen before the
accumulator lists exist, so an absent key there fails with the empty
state; `objective` is only read after the name, contact and
objective-heading rows are in `table_data`; `experiences`, `education`
and `skills` are each read just before their section runs.  On success
the result carries the final accumulator and the pdf location returned
by `generate_doc_template`; `doc.build` (the only file write) is the last
step, so an error anywhere means no file is written. -/
def generateResume (jobDataLocation : String) (data : Record) :
    Except (PyErr × TState) (TState × String) :=
  match data.basic.contact_email with
  | none => .error (.keyError "email", ⟨[], []⟩)
  | some email =>
  match data.basic.name with
  | none => .error (.keyError "name", ⟨[], []⟩)
  | some name =>
  match data.basic.contact_phone with
  | none => .error (.keyError "phone", ⟨[], []⟩)
  | some phone =>
  let linkedin :=
    match data.basic.websites.find? (fun site => site.icon == "linkedin") with
    | some site => cleanUrl site.url
    | none => ""
  let github :=
    match data.basic.websites.find? (fun site => site.icon == "github") with
    | some site => cleanUrl site.url
    | none => ""
  let address := String.intercalate ", " data.basic.address
  let pdfLocation := generateDocTemplate name jobDataLocation
  let s : TState := ⟨[], []⟩
  let s : TState :=
    if data.debug then ⟨s.tableData, s.tableStyles ++ [DEBUG_STYLE]⟩ else s
  let s : TState := ⟨s.tableData, s.tableStyles ++ DOCUMENT_ALIGNMENT⟩
  let rowIndex := 0
  let (s, rowIndex) :=
    addTableRow s rowIndex [(name, "name")] true DEFAULT_PADDING none
  let contactLine := email ++ " | " ++ phone ++ " | " ++ linkedin ++ " | "
    ++ github ++ " | " ++ address
  let (s, rowIndex) :=
    addTableRow s rowIndex [(contactLine, "contact")] true DEFAULT_PADDING none
  let (s, rowIndex) :=
    addTableRow s rowIndex [("Objective", "section")] true DEFAULT_PADDING none
  let s : TState :=
    ⟨s.tableData, appendSectionTableStyle s.tableStyles (rowIndex - 1)⟩
  match data.objective with
  | none => .error (.keyError "objective", s)
  | some objective =>
  let (s, rowIndex) :=
    addTableRow s rowIndex [(objective, "objective")] true DEFAULT_PADDING none
  match data.experiences with
  | none => .error (.keyError "experiences", s)
  | some experiences =>
  match addExperiences s rowIndex experiences with
  | .error e => .error e
  | .ok (s, rowIndex) =>
  match data.education with
  | none => .error (.keyError "education", s)
  | some education =>
  match addEducation s rowIndex education with
  | .error e => .error e
  | .ok (s, rowIndex) =>
  match data.skills with
  | none => .error (.keyError "skills", s)
  | some skills =>
  match addSkills s rowIndex skills with
  | .error e => .error e
  | .ok (s, _) => .ok (s, pdfLocation)

/-! ### Lemmas about Python `str.replace` and `clean_url` -/

/-- A single `str.replace` pass leaves a string unchanged when the
pattern does not occur in it. -/
theorem replaceGo_of_not_occurs (pat repl : List Char) :
    ∀ l : List Char, occursIn pat l = false → replaceGo pat repl l 0 = l := by
  intro l
  induction l with
  | nil => intro _; rfl
  | cons c rest ih =>
    intro h
    rw [occursIn, Bool.or_eq_false_iff] at h
    rw [replaceGo, if_neg (by simp [h.1]), ih h.2]

/-- `pyReplace` is the identity when the pattern does not occur. -/
theorem pyReplace_of_not_occurs (s pat repl : String)
    (h : occursIn pat.data s.data = false) : pyReplace s pat repl = s := by
  unfold pyReplace
  rw [replaceGo_of_not_occurs pat.data repl.data s.data h]

/-- Claim C3, counterexample: `clean_url` is not idempotent.  On
`"wwwwww.."` the replace-all of `"www."` removes the occurrence starting
at the fourth character and thereby splices the surrounding characters
into a fresh `"www."`, so the first clean yields `"www."` and the second
clean yields `""`. -/
theorem cleanUrl_not_idempotent :
    cleanUrl "wwwwww.." = "www." ∧
      cleanUrl (cleanUrl "wwwwww..") ≠ cleanUrl "wwwwww.." := by
  constructor
  · rfl
  · decide

/-- Deleting all occurrences of a pattern never lengthens the string,
in any scan state. -/
theorem replaceGo_length_le (pat : List Char) :
    ∀ (l : List Char) (skip : Nat),
      (replaceGo pat [] l skip).length ≤ l.length := by
  intro l
  induction l with
  | nil => intro skip; simp [replaceGo]
  | cons c rest ih =>
    intro skip
    cases skip with
    | zero =>
      rw [replaceGo]
      by_cases hpre : isPrefixChars pat (c :: rest) = true
      · rw [if_pos hpre]
        simp only [List.nil_append, List.length_cons]
        have := ih (pat.length - 1)
        omega
      · rw [if_neg hpre]
        simp only [List.length_cons]
        have := ih 0
        omega
    | succ n =>
      rw [replaceGo]
      have := ih n
      simp only [List.length_cons]
      omega

/-- Deleting all occurrences of a nonempty pattern that does occur
strictly shortens the string. -/
theorem replaceGo_length_lt (pat : List Char) (hp : pat ≠ []) :
    ∀ l : List Char, occursIn pat l = true →
      (replaceGo pat [] l 0).length < l.length := by
  intro l
  induction l with
  | nil =>
    intro h
    cases pat with
    | nil => exact absurd rfl hp
    | cons p ps => rw [occursIn] at h; simp [isPrefixChars] at h
  | cons c rest ih =>
    intro h
    rw [occursIn] at h
    by_cases hpre : isPrefixChars pat (c :: rest) = true
    · rw [replaceGo, if_pos hpre]
      simp only [List.nil_append, List.length_cons]
      have := replaceGo_length_le pat rest (pat.length - 1)
      omega
    · rw [replaceGo, if_neg hpre]
      simp only [List.length_cons]
      simp only [Bool.or_eq_true] at h
      rcases h with h | h
      · exact absurd h hpre
      · have := ih h
        omega

theorem pyReplace_length_le (s pat : String) :
    (pyReplace s pat "").data.length ≤ s.data.length :=
  replaceGo_length_le pat.data s.data 0

theorem pyReplace_length_lt (s pat : String) (hp : pat.data ≠ [])
    (h : occursIn pat.data s.data = true) :
    (pyReplace s pat "").data.length < s.data.length :=
  replaceGo_length_lt pat.data hp s.data h

/-- If any of the three patterns still occurs in a string, cleaning it
strictly shortens it (the replace for the first still-occurring pattern
shrinks, the others never grow), so cleaning changes it. -/
theorem cleanUrl_ne_of_occurs (y : String)
    (h : occursIn "https://".data y.data = true ∨
      occursIn "http://".data y.data = true ∨
      occursIn "www.".data y.data = true) :
    cleanUrl y ≠ y := by
  have hlt : (cleanUrl y).data.length < y.data.length := by
    show (pyReplace (pyReplace (pyReplace y "https://" "") "http://" "")
      "www." "").data.length < y.data.length
    by_cases h1 : occursIn "https://".data y.data = true
    · have l1 := pyReplace_length_lt y "https://" (by decide) h1
      have l2 := pyReplace_length_le (pyReplace y "https://" "") "http://"
      have l3 := pyReplace_length_le
        (pyReplace (pyReplace y "https://" "") "http://" "") "www."
      omega
    · have e1 : pyReplace y "https://" "" = y :=
        pyReplace_of_not_occurs y "https://" "" (by
          cases hb : occursIn "https://".data y.data
          · rfl
          · exact absurd hb h1)
      rw [e1]
      by_cases h2 : occursIn "http://".data y.data = true
      · have l2 := pyReplace_length_lt y "http://" (by decide) h2
        have l3 := pyReplace_length_le (pyReplace y "http://" "") "www."
        omega
      · have e2 : pyReplace y "http://" "" = y :=
          pyReplace_of_not_occurs y "http://" "" (by
            cases hb : occursIn "http://".data y.data
            · rfl
            · exact absurd hb h2)
        rw [e2]
        have h3 : occursIn "www.".data y.data = true := by
          rcases h with h | h | h
          · exact absurd h h1
          · exact absurd h h2
          · exact h
        exact pyReplace_length_lt y "www." (by decide) h3
  intro heq
  rw [heq] at hlt
  omega

/-- Claim C3, amended: `clean_url` is idempotent at `x` exactly when the
cleaned string `clean_url x` contains no further occurrence of
`"https://"`, `"http://"` or `"www."`.  The code's `str.replace` removes
every occurrence in one left-to-right pass, and a removal can splice a
new occurrence together, so idempotence fails in general (see
`cleanUrl_not_idempotent`); conversely, whenever any pattern remains, a
second clean strictly shortens the string. -/
theorem cleanUrl_idempotent_iff (x : String) :
    cleanUrl (cleanUrl x) = cleanUrl x ↔
      (occursIn "https://".data (cleanUrl x).data = false ∧
        occursIn "http://".data (cleanUrl x).data = false ∧
        occursIn "www.".data (cleanUrl x).data = false) := by
  constructor
  · intro h
    refine ⟨?_, ?_, ?_⟩
    · cases hb : occursIn "https://".data (cleanUrl x).data with
      | false => rfl
      | true =>
        exact absurd h (cleanUrl_ne_of_occurs (cleanUrl x) (Or.inl hb))
    · cases hb : occursIn "http://".data (cleanUrl x).data with
      | false => rfl
      | true =>
        exact absurd h (cleanUrl_ne_of_occurs (cleanUrl x) (Or.inr (Or.inl hb)))
    · cases hb : occursIn "www.".data (cleanUrl x).data with
      | false => rfl
      | true =>
        exact absurd h (cleanUrl_ne_of_occurs (cleanUrl x) (Or.inr (Or.inr hb)))
  · intro hc
    obtain ⟨h1, h2, h3⟩ := hc
    show pyReplace (pyReplace (pyReplace (cleanUrl x) "https://" "") "http://" "")
      "www." "" = cleanUrl x
    rw [pyReplace_of_not_occurs _ _ _ h1, pyReplace_of_not_occurs _ _ _ h2,
      pyReplace_of_not_occurs _ _ _ h3]

/-- Claim C4, counterexample: `clean_url` does not strip only leading
prefixes.  On `"a.www.b"` none of the three patterns is a prefix, so the
spec's prefix-stripping reading (`cleanUrlSpecModel`) leaves the string
unchanged, but the code's `str.replace` removes the interior `"www."`
occurrence and returns `"a.b"`. -/
theorem cleanUrl_strips_interior_occurrences :
    cleanUrl "a.www.b" = "a.b" ∧
      cleanUrlSpecModel "a.www.b" = "a.www.b" ∧
      cleanUrl "a.www.b" ≠ cleanUrlSpecModel "a.www.b" := by
  refine ⟨rfl, rfl, ?_⟩
  decide

/-- Claim C4, amended: `clean_url` removes every occurrence of
`"https://"`, then `"http://"`, then `"www."`, anywhere in the string
(Python `str.replace` replace-all semantics applied in that fixed
order), not only leading prefixes; in particular the spec's example
`clean_url("https://www.linkedin.com/in/x") = "linkedin.com/in/x"`
holds, an interior occurrence is also removed, and the two chained
replacements interact (`"https://https://x"` loses both copies). -/
theorem cleanUrl_replaces_all_occurrences :
    cleanUrl "https://www.linkedin.com/in/x" = "linkedin.com/in/x" ∧
      cleanUrl "a.www.b" = "a.b" ∧
      cleanUrl "https://https://x" = "x" := by
  exact ⟨rfl, rfl, rfl⟩

/-! ### Row-count bookkeeping -/

/-- Total number of highlight bullets over a list of experiences. -/
def totalHighlights (exps : List Experience) : Nat :=
  (exps.map (fun j => j.highlights.length)).sum

/-- Number of body rows the experiences loop emits: two fixed rows plus
one bullet row per highlight, for each job. -/
def jobsRows (exps : List Experience) : Nat :=
  (exps.map (fun j => 2 + j.highlights.length)).sum

theorem jobsRows_eq (exps : List Experience) :
    jobsRows exps = 2 * exps.length + totalHighlights exps := by
  induction exps with
  | nil => rfl
  | cons j rest ih =>
    simp [jobsRows, totalHighlights] at ih ⊢
    omega

theorem addTableRow_fst_len (s : TState) (ri : Nat)
    (csm : List (String × String)) (sp : Bool) (pad : Nat × Nat)
    (bp : Option String) :
    (addTableRow s ri csm sp pad bp).1.tableData.length
      = s.tableData.length + 1 := by
  simp [addTableRow]

theorem addTableRow_snd (s : TState) (ri : Nat)
    (csm : List (String × String)) (sp : Bool) (pad : Nat × Nat)
    (bp : Option String) : (addTableRow s ri csm sp pad bp).2 = ri + 1 := rfl

/-- One step of the highlight loop, the pair-destructuring `let` written
with projections. -/
theorem addHighlightRows_cons (s : TState) (ri total i : Nat) (h : String)
    (rest : List String) :
    addHighlightRows s ri total i (h :: rest) =
      addHighlightRows
        (addTableRow s ri
          [(h, if i = total - 1 then "last_bullet_point" else "bullet_points")]
          true (if i = total - 1 then (5, 1) else (0, 1)) (some "•")).1
        (addTableRow s ri
          [(h, if i = total - 1 then "last_bullet_point" else "bullet_points")]
          true (if i = total - 1 then (5, 1) else (0, 1)) (some "•")).2
        total (i + 1) rest := rfl

theorem addHighlightRows_len :
    ∀ (hls : List String) (s : TState) (ri total i : Nat),
      ((addHighlightRows s ri total i hls).1.tableData.length
          = s.tableData.length + hls.length) ∧
        (addHighlightRows s ri total i hls).2 = ri + hls.length := by
  intro hls
  induction hls with
  | nil => intro s ri total i; simp [addHighlightRows]
  | cons h rest ih =>
    intro s ri total i
    rw [addHighlightRows_cons, addTableRow_snd]
    obtain ⟨ih1, ih2⟩ := ih (addTableRow s ri
      [(h, if i = total - 1 then "last_bullet_point" else "bullet_points")]
      true (if i = total - 1 then (5, 1) else (0, 1)) (some "•")).1
      (ri + 1) total (i + 1)
    rw [ih1, ih2, addTableRow_fst_len]
    constructor <;> simp <;> omega

/-- The ok branch of `addOneJob`, written with projections. -/
theorem addOneJob_cons (s : TState) (ri : Nat) (job : Experience)
    (t0 : Title) (ts : List Title) (hT : job.titles = t0 :: ts) :
    addOneJob s ri job =
      .ok (addHighlightRows
        (addTableRow
          (addTableRow s ri
            [(job.company, "company_heading"),
              (t0.startdate ++ "-" ++ t0.enddate, "company_duration")]
            false DEFAULT_PADDING none).1
          (addTableRow s ri
            [(job.company, "company_heading"),
              (t0.startdate ++ "-" ++ t0.enddate, "company_duration")]
            false DEFAULT_PADDING none).2
          [(t0.name, "company_title"), (job.location, "company_location")]
          false DEFAULT_PADDING none).1
        (addTableRow
          (addTableRow s ri
            [(job.company, "company_heading"),
              (t0.startdate ++ "-" ++ t0.enddate, "company_duration")]
            false DEFAULT_PADDING none).1
          (addTableRow s ri
            [(job.company, "company_heading"),
              (t0.startdate ++ "-" ++ t0.enddate, "company_duration")]
            false DEFAULT_PADDING none).2
          [(t0.name, "company_title"), (job.location, "company_location")]
          false DEFAULT_PADDING none).2
        job.highlights.length 0 job.highlights) := by
  rw [addOneJob, hT]

theorem addOneJob_err (s : TState) (ri : Nat) (job : Experience)
    (h : job.titles = []) : addOneJob s ri job = .error (.indexError, s) := by
  rw [addOneJob, h]

theorem addOneJob_of_ok (s : TState) (ri : Nat) (job : Experience)
    (p : TState × Nat) (h : addOneJob s ri job = .ok p) :
    (p.1.tableData.length = s.tableData.length + (2 + job.highlights.length)) ∧
      p.2 = ri + (2 + job.highlights.length) := by
  match hT : job.titles with
  | [] => rw [addOneJob_err s ri job hT] at h; exact absurd h (by simp)
  | t0 :: ts =>
    rw [addOneJob_cons s ri job t0 ts hT] at h
    injection h with h
    subst h
    obtain ⟨hl1, hl2⟩ := addHighlightRows_len job.highlights _ _
      job.highlights.length 0
    rw [hl1, hl2, addTableRow_snd, addTableRow_snd, addTableRow_fst_len,
      addTableRow_fst_len]
    omega

theorem addOneJob_isOk (s : TState) (ri : Nat) (job : Experience)
    (h : job.titles ≠ []) : ∃ p, addOneJob s ri job = .ok p := by
  match hT : job.titles with
  | [] => exact absurd hT h
  | t0 :: ts => exact ⟨_, addOneJob_cons s ri job t0 ts hT⟩

theorem addJobs_of_ok :
    ∀ (jobs : List Experience) (s : TState) (ri : Nat) (p : TState × Nat),
      addJobs s ri jobs = .ok p →
        (p.1.tableData.length = s.tableData.length + jobsRows jobs) ∧
          p.2 = ri + jobsRows jobs := by
  intro jobs
  induction jobs with
  | nil =>
    intro s ri p h
    rw [addJobs] at h
    injection h with h
    subst h
    simp [jobsRows]
  | cons job rest ih =>
    intro s ri p h
    cases hJ : addOneJob s ri job with
    | error e => rw [addJobs, hJ] at h; exact absurd h (by simp)
    | ok q =>
      obtain ⟨s1, ri1⟩ := q
      rw [addJobs, hJ] at h
      obtain ⟨h1, h2⟩ := addOneJob_of_ok s ri job (s1, ri1) hJ
      obtain ⟨h3, h4⟩ := ih s1 ri1 p h
      simp only [jobsRows, List.map_cons, List.sum_cons] at h1 h2 h3 h4 ⊢
      constructor <;> omega

theorem addJobs_isOk :
    ∀ (jobs : List Experience) (s : TState) (ri : Nat),
      (∀ j ∈ jobs, j.titles ≠ []) → ∃ p, addJobs s ri jobs = .ok p := by
  intro jobs
  induction jobs with
  | nil => intro s ri _; exact ⟨(s, ri), rfl⟩
  | cons job rest ih =>
    intro s ri h
    obtain ⟨q, hq⟩ := addOneJob_isOk s ri job (h job (by simp))
    obtain ⟨s1, ri1⟩ := q
    obtain ⟨p, hp⟩ := ih s1 ri1 (fun j hj => h j (by simp [hj]))
    exact ⟨p, by rw [addJobs, hq]; exact hp⟩

theorem addJobs_err :
    ∀ (jobs : List Experience) (s : TState) (ri : Nat),
      (∃ j ∈ jobs, j.titles = []) →
        ∃ st, addJobs s ri jobs = .error (.indexError, st) := by
  intro jobs
  induction jobs with
  | nil => intro s ri h; exact absurd h (by simp)
  | cons job rest ih =>
    intro s ri h
    by_cases hjt : job.titles = []
    · exact ⟨s, by rw [addJobs, addOneJob_err s ri job hjt]⟩
    · obtain ⟨j, hj, hjt'⟩ := h
      have hjr : j ∈ rest := by
        rcases List.mem_cons.mp hj with rfl | hm
        · exact absurd hjt' hjt
        · exact hm
      obtain ⟨q, hq⟩ := addOneJob_isOk s ri job hjt
      obtain ⟨s1, ri1⟩ := q
      obtain ⟨st, hst⟩ := ih s1 ri1 ⟨j, hjr, hjt'⟩
      exact ⟨st, by rw [addJobs, hq]; exact hst⟩

/-- `addExperiences` written with projections (heading row, heading
directives, then the job loop). -/
theorem addExperiences_eq (s : TState) (ri : Nat) (exps : List Experience) :
    addExperiences s ri exps =
      addJobs
        ⟨(addTableRow s ri [("Experience", "section")] true
            DEFAULT_PADDING none).1.tableData,
          appendSectionTableStyle
            (addTableRow s ri [("Experience", "section")] true
              DEFAULT_PADDING none).1.tableStyles
            ((addTableRow s ri [("Experience", "section")] true
              DEFAULT_PADDING none).2 - 1)⟩
        (addTableRow s ri [("Experience", "section")] true
          DEFAULT_PADDING none).2 exps := rfl

theorem addExperiences_of_ok (s : TState) (ri : Nat) (exps : List Experience)
    (p : TState × Nat) (h : addExperiences s ri exps = .ok p) :
    (p.1.tableData.length = s.tableData.length + (1 + jobsRows exps)) ∧
      p.2 = ri + (1 + jobsRows exps) := by
  rw [addExperiences_eq] at h
  obtain ⟨h1, h2⟩ := addJobs_of_ok exps _ _ p h
  rw [addTableRow_snd] at h2
  simp only [addTableRow, List.length_append] at h1
  constructor <;> simp at h1 <;> omega

theorem addExperiences_isOk (s : TState) (ri : Nat) (exps : List Experience)
    (h : ∀ j ∈ exps, j.titles ≠ []) :
    ∃ p, addExperiences s ri exps = .ok p := by
  obtain ⟨p, hp⟩ := addJobs_isOk exps
    ⟨(addTableRow s ri [("Experience", "section")] true
        DEFAULT_PADDING none).1.tableData,
      appendSectionTableStyle
        (addTableRow s ri [("Experience", "section")] true
          DEFAULT_PADDING none).1.tableStyles
        ((addTableRow s ri [("Experience", "section")] true
          DEFAULT_PADDING none).2 - 1)⟩
    (addTableRow s ri [("Experience", "section")] true DEFAULT_PADDING none).2 h
  exact ⟨p, by rw [addExperiences_eq]; exact hp⟩

theorem addExperiences_err (s : TState) (ri : Nat) (exps : List Experience)
    (h : ∃ j ∈ exps, j.titles = []) :
    ∃ st, addExperiences s ri exps = .error (.indexError, st) := by
  obtain ⟨st, hst⟩ := addJobs_err exps
    ⟨(addTableRow s ri [("Experience", "section")] true
        DEFAULT_PADDING none).1.tableData,
      appendSectionTableStyle
        (addTableRow s ri [("Experience", "section")] true
          DEFAULT_PADDING none).1.tableStyles
        ((addTableRow s ri [("Experience", "section")] true
          DEFAULT_PADDING none).2 - 1)⟩
    (addTableRow s ri [("Experience", "section")] true DEFAULT_PADDING none).2 h
  exact ⟨st, by rw [addExperiences_eq]; exact hst⟩

/-- The ok branch of `addOneEducation`, written with projections. -/
theorem addOneEducation_cons (s : TState) (ri : Nat) (edu : EducationEntry)
    (d0 : Degree) (ds : List Degree) (hD : edu.degrees = d0 :: ds) :
    addOneEducation s ri edu =
      .ok (addTableRow s ri
        [("<font name=\x27" ++ FONT_NAMES_bold ++ "\x27>" ++ edu.school
            ++ "</font>, " ++ String.intercalate ", " d0.names,
          "education")]
        true DEFAULT_PADDING none) := by
  rw [addOneEducation, hD]

theorem addOneEducation_err (s : TState) (ri : Nat) (edu : EducationEntry)
    (h : edu.degrees = []) :
    addOneEducation s ri edu = .error (.indexError, s) := by
  rw [addOneEducation, h]

theorem addOneEducation_of_ok (s : TState) (ri : Nat) (edu : EducationEntry)
    (p : TState × Nat) (h : addOneEducation s ri edu = .ok p) :
    (p.1.tableData.length = s.tableData.length + 1) ∧ p.2 = ri + 1 := by
  match hD : edu.degrees with
  | [] => rw [addOneEducation_err s ri edu hD] at h; exact absurd h (by simp)
  | d0 :: ds =>
    rw [addOneEducation_cons s ri edu d0 ds hD] at h
    injection h with h
    subst h
    exact ⟨addTableRow_fst_len s ri _ true DEFAULT_PADDING none, rfl⟩

theorem addOneEducation_isOk (s : TState) (ri : Nat) (edu : EducationEntry)
    (h : edu.degrees ≠ []) : ∃ p, addOneEducation s ri edu = .ok p := by
  match hD : edu.degrees with
  | [] => exact absurd hD h
  | d0 :: ds => exact ⟨_, addOneEducation_cons s ri edu d0 ds hD⟩

theorem addEducationRows_of_ok :
    ∀ (edus : List EducationEntry) (s : TState) (ri : Nat) (p : TState × Nat),
      addEducationRows s ri edus = .ok p →
        (p.1.tableData.length = s.tableData.length + edus.length) ∧
          p.2 = ri + edus.length := by
  intro edus
  induction edus with
  | nil =>
    intro s ri p h
    rw [addEducationRows] at h
    injection h with h
    subst h
    simp
  | cons edu rest ih =>
    intro s ri p h
    cases hE : addOneEducation s ri edu with
    | error e => rw [addEducationRows, hE] at h; exact absurd h (by simp)
    | ok q =>
      obtain ⟨s1, ri1⟩ := q
      rw [addEducationRows, hE] at h
      obtain ⟨h1, h2⟩ := addOneEducation_of_ok s ri edu (s1, ri1) hE
      obtain ⟨h3, h4⟩ := ih s1 ri1 p h
      simp only [List.length_cons] at h1 h2 h3 h4 ⊢
      constructor <;> omega

theorem addEducationRows_isOk :
    ∀ (edus : List EducationEntry) (s : TState) (ri : Nat),
      (∀ e ∈ edus, e.degrees ≠ []) →
        ∃ p, addEducationRows s ri edus = .ok p := by
  intro edus
  induction edus with
  | nil => intro s ri _; exact ⟨(s, ri), rfl⟩
  | cons edu rest ih =>
    intro s ri h
    obtain ⟨q, hq⟩ := addOneEducation_isOk s ri edu (h edu (by simp))
    obtain ⟨s1, ri1⟩ := q
    obtain ⟨p, hp⟩ := ih s1 ri1 (fun e he => h e (by simp [he]))
    exact ⟨p, by rw [addEducationRows, hq]; exact hp⟩

theorem addEducationRows_err :
    ∀ (edus : List EducationEntry) (s : TState) (ri : Nat),
      (∃ e ∈ edus, e.degrees = []) →
        ∃ st, addEducationRows s ri edus = .error (.indexError, st) := by
  intro edus
  induction edus with
  | nil => intro s ri h; exact absurd h (by simp)
  | cons edu rest ih =>
    intro s ri h
    by_cases hd : edu.degrees = []
    · exact ⟨s, by rw [addEducationRows, addOneEducation_err s ri edu hd]⟩
    · obtain ⟨e, he, hd'⟩ := h
      have her : e ∈ rest := by
        rcases List.mem_cons.mp he with rfl | hm
        · exact absurd hd' hd
        · exact hm
      obtain ⟨q, hq⟩ := addOneEducation_isOk s ri edu hd
      obtain ⟨s1, ri1⟩ := q
      obtain ⟨st, hst⟩ := ih s1 ri1 ⟨e, her, hd'⟩
      exact ⟨st, by rw [addEducationRows, hq]; exact hst⟩

/-- `addEducation` written with projections. -/
theorem addEducation_eq (s : TState) (ri : Nat) (edus : List EducationEntry) :
    addEducation s ri edus =
      addEducationRows
        ⟨(addTableRow s ri [("Education", "section")] true
            DEFAULT_PADDING none).1.tableData,
          appendSectionTableStyle
            (addTableRow s ri [("Education", "section")] true
              DEFAULT_PADDING none).1.tableStyles
            ((addTableRow s ri [("Education", "section")] true
              DEFAULT_PADDING none).2 - 1)⟩
        (addTableRow s ri [("Education", "section")] true
          DEFAULT_PADDING none).2 edus := rfl

theorem addEducation_of_ok (s : TState) (ri : Nat) (edus : List EducationEntry)
    (p : TState × Nat) (h : addEducation s ri edus = .ok p) :
    (p.1.tableData.length = s.tableData.length + (1 + edus.length)) ∧
      p.2 = ri + (1 + edus.length) := by
  rw [addEducation_eq] at h
  obtain ⟨h1, h2⟩ := addEducationRows_of_ok edus _ _ p h
  rw [addTableRow_snd] at h2
  simp only [addTableRow, List.length_append] at h1
  constructor <;> simp at h1 <;> omega

theorem addEducation_isOk (s : TState) (ri : Nat) (edus : List EducationEntry)
    (h : ∀ e ∈ edus, e.degrees ≠ []) :
    ∃ p, addEducation s ri edus = .ok p := by
  obtain ⟨p, hp⟩ := addEducationRows_isOk edus
    ⟨(addTableRow s ri [("Education", "section")] true
        DEFAULT_PADDING none).1.tableData,
      appendSectionTableStyle
        (addTableRow s ri [("Education", "section")] true
          DEFAULT_PADDING none).1.tableStyles
        ((addTableRow s ri [("Education", "section")] true
          DEFAULT_PADDING none).2 - 1)⟩
    (addTableRow s ri [("Education", "section")] true DEFAULT_PADDING none).2 h
  exact ⟨p, by rw [addEducation_eq]; exact hp⟩

theorem addEducation_err (s : TState) (ri : Nat) (edus : List EducationEntry)
    (h : ∃ e ∈ edus, e.degrees = []) :
    ∃ st, addEducation s ri edus = .error (.indexError, st) := by
  obtain ⟨st, hst⟩ := addEducationRows_err edus
    ⟨(addTableRow s ri [("Education", "section")] true
        DEFAULT_PADDING none).1.tableData,
      appendSectionTableStyle
        (addTableRow s ri [("Education", "section")] true
          DEFAULT_PADDING none).1.tableStyles
        ((addTableRow s ri [("Education", "section")] true
          DEFAULT_PADDING none).2 - 1)⟩
    (addTableRow s ri [("Education", "section")] true DEFAULT_PADDING none).2 h
  exact ⟨st, by rw [addEducation_eq]; exact hst⟩

/-- The ok branch of `addOneSkillGroup` for a mapping with at least two
keys: the first key's value is the label, the second key's value is the
joined list (when the two keys coincide the dict lookup of the second
key finds the first value; a Python dict cannot have duplicate keys, so
that case never arises for genuine dict input). -/
theorem addOneSkillGroup_cons₂ (s : TState) (ri : Nat) (k0 : String)
    (v0 : SkillValue) (k1 : String) (v1 : SkillValue)
    (rest : List (String × SkillValue)) :
    addOneSkillGroup s ri ((k0, v0) :: (k1, v1) :: rest) =
      .ok (addTableRow s ri
        [("<font name=\x27" ++ FONT_NAMES_bold ++ "\x27>" ++ skillValueStr v0
            ++ "</font>: "
            ++ skillValueJoin (if k1 = k0 then v0 else v1),
          "skills")]
        true (2, 2) none) := by
  by_cases hk : k1 = k0 <;> simp [addOneSkillGroup, dictGet, hk]

theorem addOneSkillGroup_err (s : TState) (ri : Nat)
    (group : List (String × SkillValue)) (h : group.length < 2) :
    addOneSkillGroup s ri group = .error (.indexError, s) := by
  match group with
  | [] => simp [addOneSkillGroup]
  | [kv] => simp [addOneSkillGroup]
  | kv0 :: kv1 :: rest => exact absurd h (by simp)

theorem addOneSkillGroup_of_ok (s : TState) (ri : Nat)
    (group : List (String × SkillValue)) (p : TState × Nat)
    (h : addOneSkillGroup s ri group = .ok p) :
    (p.1.tableData.length = s.tableData.length + 1) ∧ p.2 = ri + 1 := by
  match group with
  | [] => rw [addOneSkillGroup_err s ri [] (by simp)] at h; exact absurd h (by simp)
  | [kv] => rw [addOneSkillGroup_err s ri [kv] (by simp)] at h; exact absurd h (by simp)
  | (k0, v0) :: (k1, v1) :: rest =>
    rw [addOneSkillGroup_cons₂] at h
    injection h with h
    subst h
    exact ⟨addTableRow_fst_len s ri _ true (2, 2) none, rfl⟩

theorem addOneSkillGroup_isOk (s : TState) (ri : Nat)
    (group : List (String × SkillValue)) (h : 2 ≤ group.length) :
    ∃ p, addOneSkillGroup s ri group = .ok p := by
  match group with
  | [] => simp at h
  | [kv] => simp at h
  | (k0, v0) :: (k1, v1) :: rest => exact ⟨_, addOneSkillGroup_cons₂ s ri k0 v0 k1 v1 rest⟩

theorem addSkillGroups_of_ok :
    ∀ (sks : List SkillGroup) (s : TState) (ri : Nat) (p : TState × Nat),
      addSkillGroups s ri sks = .ok p →
        (p.1.tableData.length = s.tableData.length + sks.length) ∧
          p.2 = ri + sks.length := by
  intro sks
  induction sks with
  | nil =>
    intro s ri p h
    rw [addSkillGroups] at h
    injection h with h
    subst h
    simp
  | cons group rest ih =>
    intro s ri p h
    cases hG : addOneSkillGroup s ri group with
    | error e => rw [addSkillGroups, hG] at h; exact absurd h (by simp)
    | ok q =>
      obtain ⟨s1, ri1⟩ := q
      rw [addSkillGroups, hG] at h
      obtain ⟨h1, h2⟩ := addOneSkillGroup_of_ok s ri group (s1, ri1) hG
      obtain ⟨h3, h4⟩ := ih s1 ri1 p h
      simp only [List.length_cons] at h1 h2 h3 h4 ⊢
      constructor <;> omega

theorem addSkillGroups_isOk :
    ∀ (sks : List SkillGroup) (s : TState) (ri : Nat),
      (∀ g ∈ sks, 2 ≤ (g : List (String × SkillValue)).length) →
        ∃ p, addSkillGroups s ri sks = .ok p := by
  intro sks
  induction sks with
  | nil => intro s ri _; exact ⟨(s, ri), rfl⟩
  | cons group rest ih =>
    intro s ri h
    obtain ⟨q, hq⟩ := addOneSkillGroup_isOk s ri group (h group (by simp))
    obtain ⟨s1, ri1⟩ := q
    obtain ⟨p, hp⟩ := ih s1 ri1 (fun g hg => h g (by simp [hg]))
    exact ⟨p, by rw [addSkillGroups, hq]; exact hp⟩

theorem addSkillGroups_err :
    ∀ (sks : List SkillGroup) (s : TState) (ri : Nat),
      (∃ g ∈ sks, (g : List (String × SkillValue)).length < 2) →
        ∃ st, addSkillGroups s ri sks = .error (.indexError, st) := by
  intro sks
  induction sks with
  | nil => intro s ri h; exact absurd h (by simp)
  | cons group rest ih =>
    intro s ri h
    by_cases hg2 : (group : List (String × SkillValue)).length < 2
    · exact ⟨s, by rw [addSkillGroups, addOneSkillGroup_err s ri group hg2]⟩
    · obtain ⟨g, hg, hg'⟩ := h
      have hgr : g ∈ rest := by
        rcases List.mem_cons.mp hg with rfl | hm
        · exact absurd hg' hg2
        · exact hm
      obtain ⟨q, hq⟩ := addOneSkillGroup_isOk s ri group (by omega)
      obtain ⟨s1, ri1⟩ := q
      obtain ⟨st, hst⟩ := ih s1 ri1 ⟨g, hgr, hg'⟩
      exact ⟨st, by rw [addSkillGroups, hq]; exact hst⟩

/-- `addSkills` written with projections. -/
theorem addSkills_eq (s : TState) (ri : Nat) (sks : List SkillGroup) :
    addSkills s ri sks =
      addSkillGroups
        ⟨(addTableRow s ri [("Skills", "section")] true
            DEFAULT_PADDING none).1.tableData,
          appendSectionTableStyle
            (addTableRow s ri [("Skills", "section")] true
              DEFAULT_PADDING none).1.tableStyles
            ((addTableRow s ri [("Skills", "section")] true
              DEFAULT_PADDING none).2 - 1)⟩
        (addTableRow s ri [("Skills", "section")] true
          DEFAULT_PADDING none).2 sks := rfl

theorem addSkills_of_ok (s : TState) (ri : Nat) (sks : List SkillGroup)
    (p : TState × Nat) (h : addSkills s ri sks = .ok p) :
    (p.1.tableData.length = s.tableData.length + (1 + sks.length)) ∧
      p.2 = ri + (1 + sks.length) := by
  rw [addSkills_eq] at h
  obtain ⟨h1, h2⟩ := addSkillGroups_of_ok sks _ _ p h
  rw [addTableRow_snd] at h2
  simp only [addTableRow, List.length_append] at h1
  constructor <;> simp at h1 <;> omega

theorem addSkills_isOk (s : TState) (ri : Nat) (sks : List SkillGroup)
    (h : ∀ g ∈ sks, 2 ≤ (g : List (String × SkillValue)).length) :
    ∃ p, addSkills s ri sks = .ok p := by
  obtain ⟨p, hp⟩ := addSkillGroups_isOk sks
    ⟨(addTableRow s ri [("Skills", "section")] true
        DEFAULT_PADDING none).1.tableData,
      appendSectionTableStyle
        (addTableRow s ri [("Skills", "section")] true
          DEFAULT_PADDING none).1.tableStyles
        ((addTableRow s ri [("Skills", "section")] true
          DEFAULT_PADDING none).2 - 1)⟩
    (addTableRow s ri [("Skills", "section")] true DEFAULT_PADDING none).2 h
  exact ⟨p, by rw [addSkills_eq]; exact hp⟩

theorem addSkills_err (s : TState) (ri : Nat) (sks : List SkillGroup)
    (h : ∃ g ∈ sks, (g : List (String × SkillValue)).length < 2) :
    ∃ st, addSkills s ri sks = .error (.indexError, st) := by
  obtain ⟨st, hst⟩ := addSkillGroups_err sks
    ⟨(addTableRow s ri [("Skills", "section")] true
        DEFAULT_PADDING none).1.tableData,
      appendSectionTableStyle
        (addTableRow s ri [("Skills", "section")] true
          DEFAULT_PADDING none).1.tableStyles
        ((addTableRow s ri [("Skills", "section")] true
          DEFAULT_PADDING none).2 - 1)⟩
    (addTableRow s ri [("Skills", "section")] true DEFAULT_PADDING none).2 h
  exact ⟨st, by rw [addSkills_eq]; exact hst⟩

/-! ### Reduction of `generateResume` once the required keys are present -/

/-- The first linkedin-icon website's cleaned URL, else `""`. -/
def linkedinOf (data : Record) : String :=
  match data.basic.websites.find? (fun site => site.icon == "linkedin") with
  | some site => cleanUrl site.url
  | none => ""

/-- The first github-icon website's cleaned URL, else `""`. -/
def githubOf (data : Record) : String :=
  match data.basic.websites.find? (fun site => site.icon == "github") with
  | some site => cleanUrl site.url
  | none => ""

/-- The contact row's text. -/
def contactLineOf (data : Record) (email phone : String) : String :=
  email ++ " | " ++ phone ++ " | " ++ linkedinOf data ++ " | "
    ++ githubOf data ++ " | " ++ String.intercalate ", " data.basic.address

/-- The accumulator before the first row: the optional debug grid, then
the document alignment directives. -/
def initState (data : Record) : TState :=
  ⟨[], (if data.debug then ([] : List Directive) ++ [DEBUG_STYLE] else [])
    ++ DOCUMENT_ALIGNMENT⟩

/-- The accumulator just before `data["objective"]` is read: name row,
contact row and the `Objective` heading row (rows 0-2). -/
def front3State (data : Record) (email name phone : String) : TState :=
  let a1 := addTableRow (initState data) 0 [(name, "name")] true
    DEFAULT_PADDING none
  let a2 := addTableRow a1.1 a1.2
    [(contactLineOf data email phone, "contact")] true DEFAULT_PADDING none
  let a3 := addTableRow a2.1 a2.2 [("Objective", "section")] true
    DEFAULT_PADDING none
  ⟨a3.1.tableData, appendSectionTableStyle a3.1.tableStyles (a3.2 - 1)⟩

/-- The accumulator just after the objective body row (rows 0-3). -/
def frontState (data : Record) (email name phone obj : String) : TState :=
  (addTableRow (front3State data email name phone) 3 [(obj, "objective")]
    true DEFAULT_PADDING none).1

/-- The remainder of `generateResume` past the objective row. -/
def genTail (loc : String) (data : Record) (email name phone obj : String) :
    Except (PyErr × TState) (TState × String) :=
  match data.experiences with
  | none => .error (.keyError "experiences", frontState data email name phone obj)
  | some exps =>
    match addExperiences (frontState data email name phone obj) 4 exps with
    | .error e => .error e
    | .ok (s, ri) =>
      match data.education with
      | none => .error (.keyError "education", s)
      | some edus =>
        match addEducation s ri edus with
        | .error e => .error e
        | .ok (s, ri) =>
          match data.skills with
          | none => .error (.keyError "skills", s)
          | some sks =>
            match addSkills s ri sks with
            | .error e => .error e
            | .ok (s, _) => .ok (s, generateDocTemplate name loc)

theorem generateResume_eq_tail (loc : String) (data : Record)
    (email name phone obj : String)
    (he : data.basic.contact_email = some email)
    (hn : data.basic.name = some name)
    (hp : data.basic.contact_phone = some phone)
    (ho : data.objective = some obj) :
    generateResume loc data = genTail loc data email name phone obj := by
  unfold generateResume genTail frontState front3State initState contactLineOf
    linkedinOf githubOf
  rw [he, hn, hp, ho]
  cases data.debug <;> rfl

theorem generateResume_err_email (loc : String) (data : Record)
    (he : data.basic.contact_email = none) :
    generateResume loc data = .error (.keyError "email", ⟨[], []⟩) := by
  unfold generateResume
  rw [he]

theorem generateResume_err_name (loc : String) (data : Record)
    (email : String) (he : data.basic.contact_email = some email)
    (hn : data.basic.name = none) :
    generateResume loc data = .error (.keyError "name", ⟨[], []⟩) := by
  unfold generateResume
  rw [he, hn]

theorem generateResume_err_phone (loc : String) (data : Record)
    (email name : String) (he : data.basic.contact_email = some email)
    (hn : data.basic.name = some name)
    (hp : data.basic.contact_phone = none) :
    generateResume loc data = .error (.keyError "phone", ⟨[], []⟩) := by
  unfold generateResume
  rw [he, hn, hp]

theorem generateResume_err_objective (loc : String) (data : Record)
    (email name phone : String)
    (he : data.basic.contact_email = some email)
    (hn : data.basic.name = some name)
    (hp : data.basic.contact_phone = some phone)
    (ho : data.objective = none) :
    generateResume loc data =
      .error (.keyError "objective", front3State data email name phone) := by
  unfold generateResume front3State initState contactLineOf linkedinOf githubOf
  rw [he, hn, hp, ho]
  cases data.debug <;> rfl

theorem front3State_len (data : Record) (email name phone : String) :
    (front3State data email name phone).tableData.length = 3 := by
  simp [front3State, addTableRow_fst_len, initState]

theorem frontState_len (data : Record) (email name phone obj : String) :
    (frontState data email name phone obj).tableData.length = 4 := by
  unfold frontState
  rw [addTableRow_fst_len, front3State_len]

theorem genTail_eq_ok (loc : String) (data : Record)
    (email name phone obj : String) (exps : List Experience)
    (edus : List EducationEntry) (sks : List SkillGroup)
    (s1 s2 s3 : TState) (ri1 ri2 ri3 : Nat)
    (hx : data.experiences = some exps)
    (hE : addExperiences (frontState data email name phone obj) 4 exps
      = .ok (s1, ri1))
    (hd : data.education = some edus)
    (hEd : addEducation s1 ri1 edus = .ok (s2, ri2))
    (hs : data.skills = some sks)
    (hSk : addSkills s2 ri2 sks = .ok (s3, ri3)) :
    genTail loc data email name phone obj
      = .ok (s3, generateDocTemplate name loc) := by
  unfold genTail
  simp only [hx, hE, hd, hEd, hs, hSk]

theorem genTail_err_noExperiences (loc : String) (data : Record)
    (email name phone obj : String) (hx : data.experiences = none) :
    genTail loc data email name phone obj
      = .error (.keyError "experiences", frontState data email name phone obj) := by
  unfold genTail
  simp only [hx]

theorem genTail_err_experiences (loc : String) (data : Record)
    (email name phone obj : String) (exps : List Experience)
    (e : PyErr × TState) (hx : data.experiences = some exps)
    (hE : addExperiences (frontState data email name phone obj) 4 exps
      = .error e) :
    genTail loc data email name phone obj = .error e := by
  unfold genTail
  simp only [hx, hE]

theorem genTail_err_noEducation (loc : String) (data : Record)
    (email name phone obj : String) (exps : List Experience)
    (s1 : TState) (ri1 : Nat) (hx : data.experiences = some exps)
    (hE : addExperiences (frontState data email name phone obj) 4 exps
      = .ok (s1, ri1))
    (hd : data.education = none) :
    genTail loc data email name phone obj
      = .error (.keyError "education", s1) := by
  unfold genTail
  simp only [hx, hE, hd]

theorem genTail_err_education (loc : String) (data : Record)
    (email name phone obj : String) (exps : List Experience)
    (edus : List EducationEntry) (s1 : TState) (ri1 : Nat)
    (e : PyErr × TState) (hx : data.experiences = some exps)
    (hE : addExperiences (frontState data email name phone obj) 4 exps
      = .ok (s1, ri1))
    (hd : data.education = some edus)
    (hEd : addEducation s1 ri1 edus = .error e) :
    genTail loc data email name phone obj = .error e := by
  unfold genTail
  simp only [hx, hE, hd, hEd]

theorem genTail_err_noSkills (loc : String) (data : Record)
    (email name phone obj : String) (exps : List Experience)
    (edus : List EducationEntry) (s1 s2 : TState) (ri1 ri2 : Nat)
    (hx : data.experiences = some exps)
    (hE : addExperiences (frontState data email name phone obj) 4 exps
      = .ok (s1, ri1))
    (hd : data.education = some edus)
    (hEd : addEducation s1 ri1 edus = .ok (s2, ri2))
    (hs : data.skills = none) :
    genTail loc data email name phone obj
      = .error (.keyError "skills", s2) := by
  unfold genTail
  simp only [hx, hE, hd, hEd, hs]

theorem genTail_err_skills (loc : String) (data : Record)
    (email name phone obj : String) (exps : List Experience)
    (edus : List EducationEntry) (sks : List SkillGroup)
    (s1 s2 : TState) (ri1 ri2 : Nat) (e : PyErr × TState)
    (hx : data.experiences = some exps)
    (hE : addExperiences (frontState data email name phone obj) 4 exps
      = .ok (s1, ri1))
    (hd : data.education = some edus)
    (hEd : addEducation s1 ri1 edus = .ok (s2, ri2))
    (hs : data.skills = some sks)
    (hSk : addSkills s2 ri2 sks = .error e) :
    genTail loc data email name phone obj = .error e := by
  unfold genTail
  simp only [hx, hE, hd, hEd, hs, hSk]

/-- A successful run forces all four scalar keys to be present. -/
theorem generateResume_ok_fields (loc : String) (data : Record)
    (p : TState × String) (h : generateResume loc data = .ok p) :
    ∃ email name phone obj,
      data.basic.contact_email = some email ∧
        data.basic.name = some name ∧
          data.basic.contact_phone = some phone ∧
            data.objective = some obj := by
  cases he : data.basic.contact_email with
  | none => rw [generateResume_err_email loc data he] at h; exact absurd h (by simp)
  | some email =>
  cases hn : data.basic.name with
  | none =>
    rw [generateResume_err_name loc data email he hn] at h
    exact absurd h (by simp)
  | some name =>
  cases hp : data.basic.contact_phone with
  | none =>
    rw [generateResume_err_phone loc data email name he hn hp] at h
    exact absurd h (by simp)
  | some phone =>
  cases ho : data.objective with
  | none =>
    rw [generateResume_err_objective loc data email name phone he hn hp ho] at h
    exact absurd h (by simp)
  | some obj => exact ⟨email, name, phone, obj, rfl, rfl, rfl, rfl⟩

/-- Row count of a successful run, in terms of the section sums. -/
theorem generateResume_of_ok_len (loc : String) (data : Record)
    (p : TState × String) (exps : List Experience)
    (edus : List EducationEntry) (sks : List SkillGroup)
    (hx : data.experiences = some exps) (hd : data.education = some edus)
    (hs : data.skills = some sks) (h : generateResume loc data = .ok p) :
    p.1.tableData.length
      = 4 + (1 + jobsRows exps) + (1 + edus.length) + (1 + sks.length) := by
  obtain ⟨email, name, phone, obj, he, hn, hp, ho⟩ :=
    generateResume_ok_fields loc data p h
  rw [generateResume_eq_tail loc data email name phone obj he hn hp ho] at h
  cases hE : addExperiences (frontState data email name phone obj) 4 exps with
  | error e =>
    rw [genTail_err_experiences loc data email name phone obj exps e hx hE] at h
    exact absurd h (by simp)
  | ok q1 =>
  obtain ⟨s1, ri1⟩ := q1
  cases hEd : addEducation s1 ri1 edus with
  | error e =>
    rw [genTail_err_education loc data email name phone obj exps edus s1 ri1 e
      hx hE hd hEd] at h
    exact absurd h (by simp)
  | ok q2 =>
  obtain ⟨s2, ri2⟩ := q2
  cases hSk : addSkills s2 ri2 sks with
  | error e =>
    rw [genTail_err_skills loc data email name phone obj exps edus sks s1 s2
      ri1 ri2 e hx hE hd hEd hs hSk] at h
    exact absurd h (by simp)
  | ok q3 =>
  obtain ⟨s3, ri3⟩ := q3
  rw [genTail_eq_ok loc data email name phone obj exps edus sks s1 s2 s3
    ri1 ri2 ri3 hx hE hd hEd hs hSk] at h
  injection h with h
  subst h
  obtain ⟨hE1, _⟩ := addExperiences_of_ok _ 4 exps (s1, ri1) hE
  obtain ⟨hEd1, _⟩ := addEducation_of_ok s1 ri1 edus (s2, ri2) hEd
  obtain ⟨hSk1, _⟩ := addSkills_of_ok s2 ri2 sks (s3, ri3) hSk
  rw [frontState_len] at hE1
  simp only at hE1 hEd1 hSk1 ⊢
  omega

/-- A record with all required keys present, nonempty `titles` on every
experience, nonempty `degrees` on every education entry and at least two
keys in every skill group generates successfully. -/
theorem generateResume_isOk (loc : String) (data : Record)
    (email name phone obj : String) (exps : List Experience)
    (edus : List EducationEntry) (sks : List SkillGroup)
    (he : data.basic.contact_email = some email)
    (hn : data.basic.name = some name)
    (hp : data.basic.contact_phone = some phone)
    (ho : data.objective = some obj)
    (hx : data.experiences = some exps) (hd : data.education = some edus)
    (hs : data.skills = some sks)
    (hT : ∀ j ∈ exps, j.titles ≠ [])
    (hD : ∀ e ∈ edus, e.degrees ≠ [])
    (hG : ∀ g ∈ sks, 2 ≤ (g : List (String × SkillValue)).length) :
    ∃ p, generateResume loc data = .ok p := by
  obtain ⟨q1, hE⟩ :=
    addExperiences_isOk (frontState data email name phone obj) 4 exps hT
  obtain ⟨s1, ri1⟩ := q1
  obtain ⟨q2, hEd⟩ := addEducation_isOk s1 ri1 edus hD
  obtain ⟨s2, ri2⟩ := q2
  obtain ⟨q3, hSk⟩ := addSkills_isOk s2 ri2 sks hG
  obtain ⟨s3, ri3⟩ := q3
  refine ⟨(s3, generateDocTemplate name loc), ?_⟩
  rw [generateResume_eq_tail loc data email name phone obj he hn hp ho]
  exact genTail_eq_ok loc data email name phone obj exps edus sks s1 s2 s3
    ri1 ri2 ri3 hx hE hd hEd hs hSk

/-- An experience with empty `titles` makes the whole run raise
`IndexError`. -/
theorem generateResume_err_titles (loc : String) (data : Record)
    (email name phone obj : String) (exps : List Experience)
    (he : data.basic.contact_email = some email)
    (hn : data.basic.name = some name)
    (hp : data.basic.contact_phone = some phone)
    (ho : data.objective = some obj)
    (hx : data.experiences = some exps)
    (hbad : ∃ j ∈ exps, j.titles = []) :
    ∃ st, generateResume loc data = .error (.indexError, st) := by
  obtain ⟨st, hE⟩ :=
    addExperiences_err (frontState data email name phone obj) 4 exps hbad
  refine ⟨st, ?_⟩
  rw [generateResume_eq_tail loc data email name phone obj he hn hp ho]
  exact genTail_err_experiences loc data email name phone obj exps _ hx hE

/-- An education entry with empty `degrees` (all experiences valid)
makes the whole run raise `IndexError`. -/
theorem generateResume_err_degrees (loc : String) (data : Record)
    (email name phone obj : String) (exps : List Experience)
    (edus : List EducationEntry)
    (he : data.basic.contact_email = some email)
    (hn : data.basic.name = some name)
    (hp : data.basic.contact_phone = some phone)
    (ho : data.objective = some obj)
    (hx : data.experiences = some exps)
    (hT : ∀ j ∈ exps, j.titles ≠ [])
    (hd : data.education = some edus)
    (hbad : ∃ e ∈ edus, e.degrees = []) :
    ∃ st, generateResume loc data = .error (.indexError, st) := by
  obtain ⟨q1, hE⟩ :=
    addExperiences_isOk (frontState data email name phone obj) 4 exps hT
  obtain ⟨s1, ri1⟩ := q1
  obtain ⟨st, hEd⟩ := addEducation_err s1 ri1 edus hbad
  refine ⟨st, ?_⟩
  rw [generateResume_eq_tail loc data email name phone obj he hn hp ho]
  exact genTail_err_education loc data email name phone obj exps edus s1 ri1 _
    hx hE hd hEd

/-- A skill group with fewer than two keys (all experiences and
education entries valid) makes the whole run raise `IndexError`. -/
theorem generateResume_err_groups (loc : String) (data : Record)
    (email name phone obj : String) (exps : List Experience)
    (edus : List EducationEntry) (sks : List SkillGroup)
    (he : data.basic.contact_email = some email)
    (hn : data.basic.name = some name)
    (hp : data.basic.contact_phone = some phone)
    (ho : data.objective = some obj)
    (hx : data.experiences = some exps)
    (hT : ∀ j ∈ exps, j.titles ≠ [])
    (hd : data.education = some edus)
    (hD : ∀ e ∈ edus, e.degrees ≠ [])
    (hs : data.skills = some sks)
    (hbad : ∃ g ∈ sks, (g : List (String × SkillValue)).length < 2) :
    ∃ st, generateResume loc data = .error (.indexError, st) := by
  obtain ⟨q1, hE⟩ :=
    addExperiences_isOk (frontState data email name phone obj) 4 exps hT
  obtain ⟨s1, ri1⟩ := q1
  obtain ⟨q2, hEd⟩ := addEducation_isOk s1 ri1 edus hD
  obtain ⟨s2, ri2⟩ := q2
  obtain ⟨st, hSk⟩ := addSkills_err s2 ri2 sks hbad
  refine ⟨st, ?_⟩
  rw [generateResume_eq_tail loc data email name phone obj he hn hp ho]
  exact genTail_err_skills loc data email name phone obj exps edus sks s1 s2
    ri1 ri2 _ hx hE hd hEd hs hSk

/-! ### Concrete records used to instantiate the theorems -/

/-- The successful-run state of a result (dummy on the error path). -/
def theOk (r : Except (PyErr × TState) (TState × String)) : TState × String :=
  match r with
  | .ok p => p
  | .error e => (e.2, "")

/-- Observe the number of emitted rows of a successful run. -/
def okTableLen (r : Except (PyErr × TState) (TState × String)) : Option Nat :=
  match r with
  | .ok p => some p.1.tableData.length
  | .error _ => none

/-- Observe the error kind and the number of rows already emitted when
the error was raised. -/
def errInfo (r : Except (PyErr × TState) (TState × String)) :
    Option (PyErr × Nat) :=
  match r with
  | .error e => some (e.1, e.2.tableData.length)
  | .ok _ => none

def wTitle : Title := ⟨"Engineer", "2020", "2023"⟩

def wExperience : Experience := ⟨"Acme", "NYC", [wTitle], ["built the pipeline"]⟩

def wEducationEntry : EducationEntry :=
  ⟨"State University", [⟨["BSc", "Mathematics"]⟩]⟩

def wSkillGroup : SkillGroup :=
  [("category", .vstr "Languages"), ("skills", .vlist ["Go", "Rust"])]

def wBasic : Basic :=
  ⟨some "Ada", some "ada@example.com", some "555-0100",
    [⟨"linkedin", "https://www.linkedin.com/in/x"⟩], ["Springfield", "USA"]⟩

/-- A fully valid record: one experience with one highlight, one
education entry, one skill group. -/
def wRecord : Record :=
  ⟨wBasic, some "Build reliable systems.", some [wExperience],
    some [wEducationEntry], some [wSkillGroup], false⟩

/-- Valid record with one experience (one highlight) and empty education
and skills lists. -/
def c1Record : Record := { wRecord with education := some [], skills := some [] }

/-- Otherwise-valid record missing `objective`. -/
def c2Record : Record := { wRecord with objective := none }

/-- Otherwise-valid record missing `education`. -/
def c2EduRecord : Record := { wRecord with education := none }

/-- Otherwise-valid record whose single experience has an empty
`highlights` list. -/
def c5Record : Record :=
  { wRecord with experiences := some [⟨"Acme", "NYC", [wTitle], []⟩] }

/-- Otherwise-valid record whose single experience has an empty `titles`
list. -/
def c5TitlesRecord : Record :=
  { wRecord with experiences := some [⟨"Acme", "NYC", [], ["x"]⟩] }

/-- Valid record whose `experiences`, `education` and `skills` are all
empty lists. -/
def c9Record : Record :=
  { wRecord with
    experiences := some []
    education := some []
    skills := some [] }

/-! ### Claims C1, C2, C5, C8 -/

/-- Claim C1, counterexample: on a valid record with one experience
(one highlight) and empty education/skills lists the code emits 10 rows
— name, contact, objective heading, objective body, experiences heading,
company/duration, title/location, one bullet, education heading, skills
heading — while the claim's formula `2 + 2 + (1 + 3*len(experiences) +
total_highlights) + (1 + len(education)) + (1 + len(skills))` gives 11:
each experience contributes two fixed rows, not three. -/
theorem generateResume_row_count_counterexample :
    okTableLen (generateResume "out" c1Record) = some 10 ∧
      (10 : Nat) ≠ 2 + 2 + (1 + 3 * 1 + 1) + (1 + 0) + (1 + 0) := by
  exact ⟨rfl, by decide⟩

/-- Claim C1, amended: for every record on which `generate_resume`
succeeds, the number of rows appended to `table_data` equals 2 (name +
contact) + 2 (objective heading + body) + (1 + **2**·len(experiences) +
total highlights) + (1 + len(education)) + (1 + len(skills)) — the
experiences section emits two fixed rows per job (company/duration and
title/location), not three. -/
theorem generateResume_row_count (loc : String) (data : Record)
    (p : TState × String) (exps : List Experience)
    (edus : List EducationEntry) (sks : List SkillGroup)
    (hx : data.experiences = some exps) (hd : data.education = some edus)
    (hs : data.skills = some sks) (h : generateResume loc data = .ok p) :
    p.1.tableData.length
      = 2 + 2 + (1 + 2 * exps.length + totalHighlights exps)
        + (1 + edus.length) + (1 + sks.length) := by
  have hlen := generateResume_of_ok_len loc data p exps edus sks hx hd hs h
  rw [hlen, jobsRows_eq]
  omega

/-- Claim C1, witness: the amended count at the one-of-each record. -/
theorem generateResume_row_count_witness :
    (theOk (generateResume "out" wRecord)).1.tableData.length
      = 2 + 2 + (1 + 2 * [wExperience].length + totalHighlights [wExperience])
        + (1 + [wEducationEntry].length) + (1 + [wSkillGroup].length) :=
  generateResume_row_count "out" wRecord (theOk (generateResume "out" wRecord))
    [wExperience] [wEducationEntry] [wSkillGroup] rfl rfl rfl rfl

/-- Claim C2, counterexample: a record missing only `objective` does not
fail before any row is appended — the `KeyError` is raised at the
objective body row, after the name, contact and objective-heading rows
(3 rows) are already in `table_data`. -/
theorem generateResume_missing_objective_after_rows :
    errInfo (generateResume "out" c2Record)
      = some (.keyError "objective", 3) := by
  exact rfl

/-- Claim C2, amended: a record missing `name`, `contact.email` or
`contact.phone` fails with a `KeyError` before any row has been appended
(the error state is empty), and a record missing `objective`,
`experiences`, `education` or `skills` also fails before any output file
is written — success is the only path that builds the document — but
only after the rows of the preceding sections are already in
`table_data` (3 rows for `objective`, 4 for `experiences`, 4 plus the
experiences-section rows for `education`, and additionally the
education-section rows for `skills`); in particular a record missing
`basic.contact.email` produces zero rows and writes no file. -/
theorem generateResume_missing_key_failfast :
    (∀ (loc : String) (data : Record), data.basic.contact_email = none →
      generateResume loc data = .error (.keyError "email", ⟨[], []⟩)) ∧
    (∀ (loc : String) (data : Record) (email : String),
      data.basic.contact_email = some email → data.basic.name = none →
      generateResume loc data = .error (.keyError "name", ⟨[], []⟩)) ∧
    (∀ (loc : String) (data : Record) (email name : String),
      data.basic.contact_email = some email →
      data.basic.name = some name → data.basic.contact_phone = none →
      generateResume loc data = .error (.keyError "phone", ⟨[], []⟩)) ∧
    (∀ (loc : String) (data : Record) (email name phone : String),
      data.basic.contact_email = some email →
      data.basic.name = some name → data.basic.contact_phone = some phone →
      data.objective = none →
      ∃ st, generateResume loc data = .error (.keyError "objective", st) ∧
        st.tableData.length = 3) ∧
    (∀ (loc : String) (data : Record) (email name phone obj : String),
      data.basic.contact_email = some email →
      data.basic.name = some name → data.basic.contact_phone = some phone →
      data.objective = some obj → data.experiences = none →
      ∃ st, generateResume loc data = .error (.keyError "experiences", st) ∧
        st.tableData.length = 4) ∧
    (∀ (loc : String) (data : Record) (email name phone obj : String)
      (exps : List Experience),
      data.basic.contact_email = some email →
      data.basic.name = some name → data.basic.contact_phone = some phone →
      data.objective = some obj → data.experiences = some exps →
      (∀ j ∈ exps, j.titles ≠ []) → data.education = none →
      ∃ st, generateResume loc data = .error (.keyError "education", st) ∧
        st.tableData.length = 4 + (1 + jobsRows exps)) ∧
    (∀ (loc : String) (data : Record) (email name phone obj : String)
      (exps : List Experience) (edus : List EducationEntry),
      data.basic.contact_email = some email →
      data.basic.name = some name → data.basic.contact_phone = some phone →
      data.objective = some obj → data.experiences = some exps →
      (∀ j ∈ exps, j.titles ≠ []) → data.education = some edus →
      (∀ e ∈ edus, e.degrees ≠ []) → data.skills = none →
      ∃ st, generateResume loc data = .error (.keyError "skills", st) ∧
        st.tableData.length = 4 + (1 + jobsRows exps) + (1 + edus.length)) := by
  refine ⟨?_, ?_, ?_, ?_, ?_, ?_, ?_⟩
  · intro loc data he; exact generateResume_err_email loc data he
  · intro loc data email he hn; exact generateResume_err_name loc data email he hn
  · intro loc data email name he hn hp
    exact generateResume_err_phone loc data email name he hn hp
  · intro loc data email name phone he hn hp ho
    exact ⟨front3State data email name phone,
      generateResume_err_objective loc data email name phone he hn hp ho,
      front3State_len data email name phone⟩
  · intro loc data email name phone obj he hn hp ho hx
    refine ⟨frontState data email name phone obj, ?_,
      frontState_len data email name phone obj⟩
    rw [generateResume_eq_tail loc data email name phone obj he hn hp ho]
    exact genTail_err_noExperiences loc data email name phone obj hx
  · intro loc data email name phone obj exps he hn hp ho hx hT hd
    obtain ⟨q1, hE⟩ :=
      addExperiences_isOk (frontState data email name phone obj) 4 exps hT
    obtain ⟨s1, ri1⟩ := q1
    refine ⟨s1, ?_, ?_⟩
    · rw [generateResume_eq_tail loc data email name phone obj he hn hp ho]
      exact genTail_err_noEducation loc data email name phone obj exps s1 ri1
        hx hE hd
    · obtain ⟨hlen, _⟩ := addExperiences_of_ok _ 4 exps (s1, ri1) hE
      rw [frontState_len] at hlen
      simp only at hlen
      omega
  · intro loc data email name phone obj exps edus he hn hp ho hx hT hd hD hs
    obtain ⟨q1, hE⟩ :=
      addExperiences_isOk (frontState data email name phone obj) 4 exps hT
    obtain ⟨s1, ri1⟩ := q1
    obtain ⟨q2, hEd⟩ := addEducation_isOk s1 ri1 edus hD
    obtain ⟨s2, ri2⟩ := q2
    refine ⟨s2, ?_, ?_⟩
    · rw [generateResume_eq_tail loc data email name phone obj he hn hp ho]
      exact genTail_err_noSkills loc data email name phone obj exps edus s1 s2
        ri1 ri2 hx hE hd hEd hs
    · obtain ⟨hlen1, _⟩ := addExperiences_of_ok _ 4 exps (s1, ri1) hE
      obtain ⟨hlen2, _⟩ := addEducation_of_ok s1 ri1 edus (s2, ri2) hEd
      rw [frontState_len] at hlen1
      simp only at hlen1 hlen2
      omega

/-- Claim C2, witness: the missing-objective and missing-education
conjuncts at concrete records. -/
theorem generateResume_missing_key_failfast_witness :
    (∃ st, generateResume "out" c2Record = .error (.keyError "objective", st) ∧
      st.tableData.length = 3) ∧
      ∃ st, generateResume "out" c2EduRecord
          = .error (.keyError "education", st) ∧
        st.tableData.length = 4 + (1 + jobsRows [wExperience]) :=
  ⟨generateResume_missing_key_failfast.2.2.2.1 "out" c2Record
      "ada@example.com" "Ada" "555-0100" rfl rfl rfl rfl,
    generateResume_missing_key_failfast.2.2.2.2.2.1 "out" c2EduRecord
      "ada@example.com" "Ada" "555-0100" "Build reliable systems."
      [wExperience] rfl rfl rfl rfl rfl (by decide) rfl⟩

/-- Claim C5, counterexample: an experience with an empty `highlights`
list does not make `generate_resume` fail — the highlight loop simply
runs zero times, and the run succeeds with 11 rows (the job still emits
its two fixed rows). -/
theorem generateResume_empty_highlights_ok :
    okTableLen (generateResume "out" c5Record) = some 11 := by
  exact rfl

/-- Claim C5, amended: an experience with an empty `titles` list, an
education entry with an empty `degrees` list, or a skill group with
fewer than two keys each make `generate_resume` fail with an
`IndexError`; an experience with an empty `highlights` list does NOT
fail — a record whose experiences all have nonempty `titles`, whose
education entries all have nonempty `degrees` and whose skill groups
all have at least two keys succeeds regardless of its highlight lists. -/
theorem generateResume_malformed_entries :
    (∀ (loc : String) (data : Record) (email name phone obj : String)
      (exps : List Experience),
      data.basic.contact_email = some email → data.basic.name = some name →
      data.basic.contact_phone = some phone → data.objective = some obj →
      data.experiences = some exps → (∃ j ∈ exps, j.titles = []) →
      ∃ st, generateResume loc data = .error (.indexError, st)) ∧
    (∀ (loc : String) (data : Record) (email name phone obj : String)
      (exps : List Experience) (edus : List EducationEntry),
      data.basic.contact_email = some email → data.basic.name = some name →
      data.basic.contact_phone = some phone → data.objective = some obj →
      data.experiences = some exps → (∀ j ∈ exps, j.titles ≠ []) →
      data.education = some edus → (∃ e ∈ edus, e.degrees = []) →
      ∃ st, generateResume loc data = .error (.indexError, st)) ∧
    (∀ (loc : String) (data : Record) (email name phone obj : String)
      (exps : List Experience) (edus : List EducationEntry)
      (sks : List SkillGroup),
      data.basic.contact_email = some email → data.basic.name = some name →
      data.basic.contact_phone = some phone → data.objective = some obj →
      data.experiences = some exps → (∀ j ∈ exps, j.titles ≠ []) →
      data.education = some edus → (∀ e ∈ edus, e.degrees ≠ []) →
      data.skills = some sks → (∃ g ∈ sks, g.length < 2) →
      ∃ st, generateResume loc data = .error (.indexError, st)) ∧
    (∀ (loc : String) (data : Record) (email name phone obj : String)
      (exps : List Experience) (edus : List EducationEntry)
      (sks : List SkillGroup),
      data.basic.contact_email = some email → data.basic.name = some name →
      data.basic.contact_phone = some phone → data.objective = some obj →
      data.experiences = some exps → data.education = some edus →
      data.skills = some sks → (∀ j ∈ exps, j.titles ≠ []) →
      (∀ e ∈ edus, e.degrees ≠ []) → (∀ g ∈ sks, 2 ≤ g.length) →
      ∃ p, generateResume loc data = .ok p) := by
  refine ⟨?_, ?_, ?_, ?_⟩
  · intro loc data email name phone obj exps he hn hp ho hx hbad
    exact generateResume_err_titles loc data email name phone obj exps
      he hn hp ho hx hbad
  · intro loc data email name phone obj exps edus he hn hp ho hx hT hd hbad
    exact generateResume_err_degrees loc data email name phone obj exps edus
      he hn hp ho hx hT hd hbad
  · intro loc data email name phone obj exps edus sks he hn hp ho hx hT hd
      hD hs hbad
    exact generateResume_err_groups loc data email name phone obj exps edus
      sks he hn hp ho hx hT hd hD hs hbad
  · intro loc data email name phone obj exps edus sks he hn hp ho hx hd hs
      hT hD hG
    exact generateResume_isOk loc data email name phone obj exps edus sks
      he hn hp ho hx hd hs hT hD hG

/-- Claim C5, witness: empty `titles` fails, empty `highlights`
succeeds, at concrete records. -/
theorem generateResume_malformed_entries_witness :
    (∃ st, generateResume "out" c5TitlesRecord = .error (.indexError, st)) ∧
      ∃ p, generateResume "out" c5Record = .ok p :=
  ⟨generateResume_malformed_entries.1 "out" c5TitlesRecord
      "ada@example.com" "Ada" "555-0100" "Build reliable systems."
      [⟨"Acme", "NYC", [], ["x"]⟩] rfl rfl rfl rfl rfl
      ⟨⟨"Acme", "NYC", [], ["x"]⟩, by simp, rfl⟩,
    generateResume_malformed_entries.2.2.2 "out" c5Record
      "ada@example.com" "Ada" "555-0100" "Build reliable systems."
      [⟨"Acme", "NYC", [wTitle], []⟩] [wEducationEntry] [wSkillGroup]
      rfl rfl rfl rfl rfl rfl rfl (by decide) (by decide) (by decide)⟩

/-- Claim C8: `generate_resume` is deterministic — two runs on equal
input records produce identical `table_data` row sequences and identical
`table_styles` directive sequences (the embedding is a pure function of
the record, mirroring the code's freedom from randomness and shared
state). -/
theorem generateResume_deterministic (loc : String) (d1 d2 : Record)
    (h : d1 = d2) (p1 p2 : TState × String)
    (h1 : generateResume loc d1 = .ok p1)
    (h2 : generateResume loc d2 = .ok p2) :
    p1.1.tableData = p2.1.tableData ∧ p1.1.tableStyles = p2.1.tableStyles := by
  subst h
  rw [h1] at h2
  injection h2 with h2
  subst h2
  exact ⟨rfl, rfl⟩

/-! ### Style-directive bounds (claim C7) -/

/-- All nonnegative row coordinates of the directive are at most `n`
(negative coordinates are reportlab's from-the-end indices). -/
def dirRowsLe (d : Directive) (n : Nat) : Prop :=
  (0 ≤ d.startRow → d.startRow ≤ (n : Int)) ∧
    (0 ≤ d.endRow → d.endRow ≤ (n : Int))

instance (d : Directive) (n : Nat) : Decidable (dirRowsLe d n) := by
  unfold dirRowsLe; infer_instance

/-- All directives have nonnegative row coordinates at most `n`. -/
def stylesLe (s : TState) (n : Nat) : Prop :=
  ∀ d ∈ s.tableStyles, dirRowsLe d n

instance (s : TState) (n : Nat) : Decidable (stylesLe s n) := by
  unfold stylesLe; infer_instance

/-- Every style directive's nonnegative row coordinates refer to a row
already appended to `table_data`. -/
def stylesInBounds (s : TState) : Prop :=
  ∀ d ∈ s.tableStyles,
    (0 ≤ d.startRow → d.startRow < (s.tableData.length : Int)) ∧
      (0 ≤ d.endRow → d.endRow < (s.tableData.length : Int))

instance (s : TState) : Decidable (stylesInBounds s) := by
  unfold stylesInBounds; infer_instance

/-- The invariant threaded through the generator: directives in bounds
and the row index equal to the number of appended rows. -/
def Synced (s : TState) (ri : Nat) : Prop :=
  stylesInBounds s ∧ ri = s.tableData.length

theorem stylesLe_of_inBounds (s : TState) (n : Nat) (h : stylesInBounds s)
    (hn : s.tableData.length ≤ n) : stylesLe s n := by
  intro d hd
  obtain ⟨h1, h2⟩ := h d hd
  constructor
  · intro h0; have := h1 h0; omega
  · intro h0; have := h2 h0; omega

theorem synced_stylesLe (s : TState) (ri : Nat) (h : Synced s ri) :
    stylesLe s ri :=
  stylesLe_of_inBounds s ri h.1 (Nat.le_of_eq h.2.symm)

theorem addTableRow_mem_styles (s : TState) (ri : Nat)
    (csm : List (String × String)) (sp : Bool) (pad : Nat × Nat)
    (bp : Option String) (d : Directive)
    (hd : d ∈ (addTableRow s ri csm sp pad bp).1.tableStyles) :
    d ∈ s.tableStyles ∨ (d.startRow = (ri : Int) ∧ d.endRow = (ri : Int)) := by
  cases sp with
  | false =>
    simp [addTableRow] at hd
    rcases hd with hd | rfl | rfl
    · exact Or.inl hd
    · exact Or.inr ⟨rfl, rfl⟩
    · exact Or.inr ⟨rfl, rfl⟩
  | true =>
    simp [addTableRow] at hd
    rcases hd with hd | rfl | rfl | rfl
    · exact Or.inl hd
    · exact Or.inr ⟨rfl, rfl⟩
    · exact Or.inr ⟨rfl, rfl⟩
    · exact Or.inr ⟨rfl, rfl⟩

/-- Claim C7's per-call fact for `_add_table_row`: called with the row
index equal to the current row count (and every existing directive not
past that index) it leaves every directive in bounds and returns the new
row count. -/
theorem addTableRow_step (s : TState) (ri : Nat)
    (csm : List (String × String)) (sp : Bool) (pad : Nat × Nat)
    (bp : Option String) (h1 : ri = s.tableData.length)
    (h2 : stylesLe s ri) :
    Synced (addTableRow s ri csm sp pad bp).1
      (addTableRow s ri csm sp pad bp).2 := by
  constructor
  · intro d hd
    rw [addTableRow_fst_len]
    rcases addTableRow_mem_styles s ri csm sp pad bp d hd with hmem | ⟨e1, e2⟩
    · obtain ⟨g1, g2⟩ := h2 d hmem
      constructor
      · intro h0; have := g1 h0; omega
      · intro h0; have := g2 h0; omega
    · constructor
      · intro h0; rw [e1]; omega
      · intro h0; rw [e2]; omega
  · rw [addTableRow_snd, addTableRow_fst_len, h1]

theorem addTableRow_synced (s : TState) (ri : Nat)
    (csm : List (String × String)) (sp : Bool) (pad : Nat × Nat)
    (bp : Option String) (h : Synced s ri) :
    Synced (addTableRow s ri csm sp pad bp).1
      (addTableRow s ri csm sp pad bp).2 :=
  addTableRow_step s ri csm sp pad bp h.2 (synced_stylesLe s ri h)

theorem appendSection_mem (styles : List Directive) (r : Nat) (d : Directive)
    (hd : d ∈ appendSectionTableStyle styles r) :
    d ∈ styles ∨ (d.startRow = (r : Int) ∧ d.endRow = (r : Int)) := by
  simp [appendSectionTableStyle] at hd
  rcases hd with hd | rfl | rfl | rfl
  · exact Or.inl hd
  · exact Or.inr ⟨rfl, rfl⟩
  · exact Or.inr ⟨rfl, rfl⟩
  · exact Or.inr ⟨rfl, rfl⟩

/-- Claim C7's per-call fact for `_append_section_table_style`: applied
to a row index of an already-appended row it keeps every directive in
bounds. -/
theorem appendSection_inBounds (s : TState) (r : Nat)
    (h : stylesInBounds s) (hr : r < s.tableData.length) :
    stylesInBounds ⟨s.tableData, appendSectionTableStyle s.tableStyles r⟩ := by
  intro d hd
  rw [show (⟨s.tableData, appendSectionTableStyle s.tableStyles r⟩
    : TState).tableData.length = s.tableData.length from rfl]
  rcases appendSection_mem s.tableStyles r d hd with hmem | ⟨e1, e2⟩
  · exact h d hmem
  · constructor
    · intro h0; rw [e1]; omega
    · intro h0; rw [e2]; omega

/-- A heading step: one appended row followed by the heading directives
scoped to it, as every section transform starts. -/
theorem appendHeading_synced (a : TState × Nat) (h : Synced a.1 a.2)
    (hpos : 1 ≤ a.2) :
    Synced ⟨a.1.tableData, appendSectionTableStyle a.1.tableStyles (a.2 - 1)⟩
      a.2 := by
  obtain ⟨hb, hlen⟩ := h
  refine ⟨appendSection_inBounds a.1 (a.2 - 1) hb ?_, hlen⟩
  omega

theorem addHighlightRows_synced :
    ∀ (hls : List String) (s : TState) (ri total i : Nat), Synced s ri →
      Synced (addHighlightRows s ri total i hls).1
        (addHighlightRows s ri total i hls).2 := by
  intro hls
  induction hls with
  | nil => intro s ri total i h; exact h
  | cons hl rest ih =>
    intro s ri total i h
    rw [addHighlightRows_cons]
    exact ih _ _ total (i + 1) (addTableRow_synced s ri _ true _ (some "•") h)

theorem addOneJob_synced (s : TState) (ri : Nat) (job : Experience)
    (p : TState × Nat) (h : Synced s ri) (hok : addOneJob s ri job = .ok p) :
    Synced p.1 p.2 := by
  match hT : job.titles with
  | [] => rw [addOneJob_err s ri job hT] at hok; exact absurd hok (by simp)
  | t0 :: ts =>
    rw [addOneJob_cons s ri job t0 ts hT] at hok
    injection hok with hok
    subst hok
    exact addHighlightRows_synced job.highlights _ _ job.highlights.length 0
      (addTableRow_synced _ _ _ false DEFAULT_PADDING none
        (addTableRow_synced s ri _ false DEFAULT_PADDING none h))

theorem addJobs_synced :
    ∀ (jobs : List Experience) (s : TState) (ri : Nat) (p : TState × Nat),
      Synced s ri → addJobs s ri jobs = .ok p → Synced p.1 p.2 := by
  intro jobs
  induction jobs with
  | nil =>
    intro s ri p h hok
    rw [addJobs] at hok
    injection hok with hok
    subst hok
    exact h
  | cons job rest ih =>
    intro s ri p h hok
    cases hJ : addOneJob s ri job with
    | error e => rw [addJobs, hJ] at hok; exact absurd hok (by simp)
    | ok q =>
      obtain ⟨s1, ri1⟩ := q
      rw [addJobs, hJ] at hok
      exact ih s1 ri1 p (addOneJob_synced s ri job (s1, ri1) h hJ) hok

theorem sectionHeading_synced (s : TState) (ri : Nat) (c : String)
    (h : Synced s ri) :
    Synced
      ⟨(addTableRow s ri [(c, "section")] true DEFAULT_PADDING none).1.tableData,
        appendSectionTableStyle
          (addTableRow s ri [(c, "section")] true DEFAULT_PADDING none).1.tableStyles
          ((addTableRow s ri [(c, "section")] true DEFAULT_PADDING none).2 - 1)⟩
      (addTableRow s ri [(c, "section")] true DEFAULT_PADDING none).2 := by
  refine appendHeading_synced _
    (addTableRow_synced s ri [(c, "section")] true DEFAULT_PADDING none h) ?_
  rw [addTableRow_snd]
  omega

theorem addExperiences_synced (s : TState) (ri : Nat)
    (exps : List Experience) (p : TState × Nat) (h : Synced s ri)
    (hok : addExperiences s ri exps = .ok p) : Synced p.1 p.2 := by
  rw [addExperiences_eq] at hok
  exact addJobs_synced exps _ _ p (sectionHeading_synced s ri "Experience" h) hok

theorem addOneEducation_synced (s : TState) (ri : Nat)
    (edu : EducationEntry) (p : TState × Nat) (h : Synced s ri)
    (hok : addOneEducation s ri edu = .ok p) : Synced p.1 p.2 := by
  match hD : edu.degrees with
  | [] => rw [addOneEducation_err s ri edu hD] at hok; exact absurd hok (by simp)
  | d0 :: ds =>
    rw [addOneEducation_cons s ri edu d0 ds hD] at hok
    injection hok with hok
    subst hok
    exact addTableRow_synced s ri _ true DEFAULT_PADDING none h

theorem addEducationRows_synced :
    ∀ (edus : List EducationEntry) (s : TState) (ri : Nat) (p : TState × Nat),
      Synced s ri → addEducationRows s ri edus = .ok p → Synced p.1 p.2 := by
  intro edus
  induction edus with
  | nil =>
    intro s ri p h hok
    rw [addEducationRows] at hok
    injection hok with hok
    subst hok
    exact h
  | cons edu rest ih =>
    intro s ri p h hok
    cases hE : addOneEducation s ri edu with
    | error e => rw [addEducationRows, hE] at hok; exact absurd hok (by simp)
    | ok q =>
      obtain ⟨s1, ri1⟩ := q
      rw [addEducationRows, hE] at hok
      exact ih s1 ri1 p (addOneEducation_synced s ri edu (s1, ri1) h hE) hok

theorem addEducation_synced (s : TState) (ri : Nat)
    (edus : List EducationEntry) (p : TState × Nat) (h : Synced s ri)
    (hok : addEducation s ri edus = .ok p) : Synced p.1 p.2 := by
  rw [addEducation_eq] at hok
  exact addEducationRows_synced edus _ _ p
    (sectionHeading_synced s ri "Education" h) hok

theorem addOneSkillGroup_synced (s : TState) (ri : Nat) (group : SkillGroup)
    (p : TState × Nat) (h : Synced s ri)
    (hok : addOneSkillGroup s ri group = .ok p) : Synced p.1 p.2 := by
  match group with
  | [] =>
    rw [addOneSkillGroup_err s ri [] (by simp)] at hok
    exact absurd hok (by simp)
  | [kv] =>
    rw [addOneSkillGroup_err s ri [kv] (by simp)] at hok
    exact absurd hok (by simp)
  | (k0, v0) :: (k1, v1) :: rest =>
    rw [addOneSkillGroup_cons₂] at hok
    injection hok with hok
    subst hok
    exact addTableRow_synced s ri _ true (2, 2) none h

theorem addSkillGroups_synced :
    ∀ (sks : List SkillGroup) (s : TState) (ri : Nat) (p : TState × Nat),
      Synced s ri → addSkillGroups s ri sks = .ok p → Synced p.1 p.2 := by
  intro sks
  induction sks with
  | nil =>
    intro s ri p h hok
    rw [addSkillGroups] at hok
    injection hok with hok
    subst hok
    exact h
  | cons group rest ih =>
    intro s ri p h hok
    cases hG : addOneSkillGroup s ri group with
    | error e => rw [addSkillGroups, hG] at hok; exact absurd hok (by simp)
    | ok q =>
      obtain ⟨s1, ri1⟩ := q
      rw [addSkillGroups, hG] at hok
      exact ih s1 ri1 p (addOneSkillGroup_synced s ri group (s1, ri1) h hG) hok

theorem addSkills_synced (s : TState) (ri : Nat) (sks : List SkillGroup)
    (p : TState × Nat) (h : Synced s ri)
    (hok : addSkills s ri sks = .ok p) : Synced p.1 p.2 := by
  rw [addSkills_eq] at hok
  exact addSkillGroups_synced sks _ _ p
    (sectionHeading_synced s ri "Skills" h) hok

theorem initState_stylesLe (data : Record) : stylesLe (initState data) 0 := by
  unfold initState
  cases data.debug <;> decide

theorem front3State_synced (data : Record) (email name phone : String) :
    Synced (front3State data email name phone) 3 := by
  have s1 := addTableRow_step (initState data) 0 [(name, "name")] true
    DEFAULT_PADDING none rfl (initState_stylesLe data)
  have s2 := addTableRow_synced _ _
    [(contactLineOf data email phone, "contact")] true DEFAULT_PADDING none s1
  have s3 := addTableRow_synced _ _ [("Objective", "section")] true
    DEFAULT_PADDING none s2
  have s4 := appendHeading_synced _ s3 (by rw [addTableRow_snd]; omega)
  exact s4

theorem frontState_synced (data : Record) (email name phone obj : String) :
    Synced (frontState data email name phone obj) 4 := by
  have h := addTableRow_synced (front3State data email name phone) 3
    [(obj, "objective")] true DEFAULT_PADDING none
    (front3State_synced data email name phone)
  rw [addTableRow_snd] at h
  exact h

/-- Every successful run's final state has all directives in bounds. -/
theorem generateResume_ok_inBounds (loc : String) (data : Record)
    (p : TState × String) (h : generateResume loc data = .ok p) :
    stylesInBounds p.1 := by
  obtain ⟨email, name, phone, obj, he, hn, hp, ho⟩ :=
    generateResume_ok_fields loc data p h
  rw [generateResume_eq_tail loc data email name phone obj he hn hp ho] at h
  cases hx : data.experiences with
  | none =>
    rw [genTail_err_noExperiences loc data email name phone obj hx] at h
    exact absurd h (by simp)
  | some exps =>
  cases hE : addExperiences (frontState data email name phone obj) 4 exps with
  | error e =>
    rw [genTail_err_experiences loc data email name phone obj exps e hx hE] at h
    exact absurd h (by simp)
  | ok q1 =>
  obtain ⟨s1, ri1⟩ := q1
  have sy1 : Synced s1 ri1 :=
    addExperiences_synced (frontState data email name phone obj) 4 exps
      (s1, ri1) (frontState_synced data email name phone obj) hE
  cases hd : data.education with
  | none =>
    rw [genTail_err_noEducation loc data email name phone obj exps s1 ri1
      hx hE hd] at h
    exact absurd h (by simp)
  | some edus =>
  cases hEd : addEducation s1 ri1 edus with
  | error e =>
    rw [genTail_err_education loc data email name phone obj exps edus s1 ri1 e
      hx hE hd hEd] at h
    exact absurd h (by simp)
  | ok q2 =>
  obtain ⟨s2, ri2⟩ := q2
  have sy2 : Synced s2 ri2 := addEducation_synced s1 ri1 edus (s2, ri2) sy1 hEd
  cases hs : data.skills with
  | none =>
    rw [genTail_err_noSkills loc data email name phone obj exps edus s1 s2
      ri1 ri2 hx hE hd hEd hs] at h
    exact absurd h (by simp)
  | some sks =>
  cases hSk : addSkills s2 ri2 sks with
  | error e =>
    rw [genTail_err_skills loc data email name phone obj exps edus sks s1 s2
      ri1 ri2 e hx hE hd hEd hs hSk] at h
    exact absurd h (by simp)
  | ok q3 =>
  obtain ⟨s3, ri3⟩ := q3
  have sy3 : Synced s3 ri3 := addSkills_synced s2 ri2 sks (s3, ri3) sy2 hSk
  rw [genTail_eq_ok loc data email name phone obj exps edus sks s1 s2 s3
    ri1 ri2 ri3 hx hE hd hEd hs hSk] at h
  injection h with h
  subst h
  exact sy3.1

/-- Claim C7: directives are generated in lockstep with row emission —
(1) `_add_table_row`, called with the row index equal to the current row
count and no existing directive past it, leaves every directive's
nonnegative row coordinates strictly below the new row count and returns
the new `len(table_data)`; (2) `_append_section_table_style` applied to
an already-appended row preserves the bound; (3) consequently the final
state of every successful `generate_resume` run has every directive's
row coordinates strictly below `len(table_data)`. -/
theorem tableStyles_lockstep :
    (∀ (s : TState) (ri : Nat) (csm : List (String × String)) (sp : Bool)
      (pad : Nat × Nat) (bp : Option String),
      ri = s.tableData.length → stylesLe s ri →
      stylesInBounds (addTableRow s ri csm sp pad bp).1 ∧
        (addTableRow s ri csm sp pad bp).2
          = (addTableRow s ri csm sp pad bp).1.tableData.length) ∧
    (∀ (s : TState) (r : Nat), stylesInBounds s → r < s.tableData.length →
      stylesInBounds ⟨s.tableData, appendSectionTableStyle s.tableStyles r⟩) ∧
    (∀ (loc : String) (data : Record) (p : TState × String),
      generateResume loc data = .ok p → stylesInBounds p.1) := by
  refine ⟨?_, ?_, ?_⟩
  · intro s ri csm sp pad bp h1 h2
    exact addTableRow_step s ri csm sp pad bp h1 h2
  · intro s r h hr
    exact appendSection_inBounds s r h hr
  · intro loc data p h
    exact generateResume_ok_inBounds loc data p h

/-- Claim C7, witness: the final state of a successful concrete run, and
the per-call fact at the empty accumulator. -/
theorem tableStyles_lockstep_witness :
    stylesInBounds (theOk (generateResume "out" wRecord)).1 ∧
      stylesInBounds
        (addTableRow ⟨[], []⟩ 0 [("x", "name")] true (1, 1) none).1 :=
  ⟨tableStyles_lockstep.2.2 "out" wRecord (theOk (generateResume "out" wRecord))
      rfl,
    (tableStyles_lockstep.1 ⟨[], []⟩ 0 [("x", "name")] true (1, 1) none rfl
      (by decide)).1⟩

/-! ### Claim C10 -/

/-- Claim C10: for a skill-group mapping with two or more keys,
`add_skills` uses only the first two keys in iteration order — the first
key's value as the bold label, the second key's value comma-joined —
and any additional key/value pairs are silently ignored (the result does
not depend on them) with no error. -/
theorem addOneSkillGroup_first_two_keys (s : TState) (ri : Nat)
    (k0 : String) (v0 : SkillValue) (k1 : String) (v1 : SkillValue)
    (rest : List (String × SkillValue)) (hk : k0 ≠ k1) :
    addOneSkillGroup s ri ((k0, v0) :: (k1, v1) :: rest)
        = addOneSkillGroup s ri [(k0, v0), (k1, v1)] ∧
      addOneSkillGroup s ri ((k0, v0) :: (k1, v1) :: rest)
        = .ok (addTableRow s ri
            [("<font name=\x27" ++ FONT_NAMES_bold ++ "\x27>"
                ++ skillValueStr v0 ++ "</font>: " ++ skillValueJoin v1,
              "skills")]
            true (2, 2) none) := by
  have h1 := addOneSkillGroup_cons₂ s ri k0 v0 k1 v1 rest
  have h2 := addOneSkillGroup_cons₂ s ri k0 v0 k1 v1 []
  rw [if_neg (Ne.symm hk)] at h1 h2
  exact ⟨h1.trans h2.symm, h1⟩

/-- Claim C10, witness: a three-key group at a concrete input. -/
theorem addOneSkillGroup_first_two_keys_witness :
    addOneSkillGroup ⟨[], []⟩ 0
        (("category", .vstr "Languages") :: ("skills", .vlist ["Go", "Rust"])
          :: [("extra", .vstr "ignored")])
        = addOneSkillGroup ⟨[], []⟩ 0
          [("category", .vstr "Languages"), ("skills", .vlist ["Go", "Rust"])] ∧
      addOneSkillGroup ⟨[], []⟩ 0
        (("category", .vstr "Languages") :: ("skills", .vlist ["Go", "Rust"])
          :: [("extra", .vstr "ignored")])
        = .ok (addTableRow ⟨[], []⟩ 0
            [("<font name=\x27" ++ FONT_NAMES_bold ++ "\x27>"
                ++ skillValueStr (.vstr "Languages") ++ "</font>: "
                ++ skillValueJoin (.vlist ["Go", "Rust"]),
              "skills")]
            true (2, 2) none) :=
  addOneSkillGroup_first_two_keys ⟨[], []⟩ 0 "category" (.vstr "Languages")
    "skills" (.vlist ["Go", "Rust"]) [("extra", .vstr "ignored")] (by decide)

/-! ### Claim C9 -/

/-- The six style directives a section heading row carries: the row's
bottom/top padding and `SPAN` from `_add_table_row`, then the
top-padding, bottom-padding and thin underline from
`_append_section_table_style`. -/
def sectionHeadingStyles (ri : Nat) : List Directive :=
  [⟨"BOTTOMPADDING", 0, ri, -1, ri, ["1"]⟩,
   ⟨"TOPPADDING", 0, ri, -1, ri, ["1"]⟩,
   ⟨"SPAN", 0, ri, 1, ri, []⟩,
   ⟨"TOPPADDING", 0, ri, 1, ri, ["5"]⟩,
   ⟨"BOTTOMPADDING", 0, ri, 1, ri, ["2"]⟩,
   ⟨"LINEBELOW", 0, ri, -1, ri, ["0.1", "black"]⟩]

/-- Claim C9: when `experiences`, `education` and `skills` are present
but empty lists, none of the three sections raises an error: each
appends exactly its heading row with the heading directives and no body
rows, and the whole run succeeds with exactly 7 rows (name, contact,
objective heading, objective body, and the three section headings). -/
theorem emptySections_heading_only :
    (∀ (s : TState) (ri : Nat), addExperiences s ri [] =
      .ok (⟨s.tableData ++ [[⟨"Experience", "section", none⟩]],
        s.tableStyles ++ sectionHeadingStyles ri⟩, ri + 1)) ∧
    (∀ (s : TState) (ri : Nat), addEducation s ri [] =
      .ok (⟨s.tableData ++ [[⟨"Education", "section", none⟩]],
        s.tableStyles ++ sectionHeadingStyles ri⟩, ri + 1)) ∧
    (∀ (s : TState) (ri : Nat), addSkills s ri [] =
      .ok (⟨s.tableData ++ [[⟨"Skills", "section", none⟩]],
        s.tableStyles ++ sectionHeadingStyles ri⟩, ri + 1)) ∧
    (∀ (loc : String) (data : Record) (email name phone obj : String),
      data.basic.contact_email = some email → data.basic.name = some name →
      data.basic.contact_phone = some phone → data.objective = some obj →
      data.experiences = some [] → data.education = some [] →
      data.skills = some [] →
      ∃ p, generateResume loc data = .ok p ∧ p.1.tableData.length = 7) := by
  refine ⟨?_, ?_, ?_, ?_⟩
  · intro s ri
    simp [addExperiences_eq, addJobs, addTableRow, appendSectionTableStyle,
      DEFAULT_PADDING, sectionHeadingStyles,
      show toString (1 : Nat) = "1" from rfl]
  · intro s ri
    simp [addEducation_eq, addEducationRows, addTableRow,
      appendSectionTableStyle, DEFAULT_PADDING, sectionHeadingStyles,
      show toString (1 : Nat) = "1" from rfl]
  · intro s ri
    simp [addSkills_eq, addSkillGroups, addTableRow, appendSectionTableStyle,
      DEFAULT_PADDING, sectionHeadingStyles,
      show toString (1 : Nat) = "1" from rfl]
  · intro loc data email name phone obj he hn hp ho hx hd hs
    obtain ⟨p, hp⟩ := generateResume_isOk loc data email name phone obj [] []
      [] he hn hp ho hx hd hs (by simp) (by simp) (by simp)
    refine ⟨p, hp, ?_⟩
    have hl := generateResume_of_ok_len loc data p [] [] [] hx hd hs hp
    rw [hl]
    rfl

/-- Claim C9, witness: the all-empty-lists record. -/
theorem emptySections_heading_only_witness :
    ∃ p, generateResume "out" c9Record = .ok p ∧ p.1.tableData.length = 7 :=
  emptySections_heading_only.2.2.2 "out" c9Record "ada@example.com" "Ada"
    "555-0100" "Build reliable systems." rfl rfl rfl rfl rfl rfl rfl

/-! ### Claim C6 -/

/-- Spec-side shape of one highlight bullet row: the last bullet of a
job gets the `last_bullet_point` style, every other bullet gets
`bullet_points`; all bullet rows span both columns and carry `•`. -/
def specBulletRow (h : String) (isLast : Bool) : Row :=
  [⟨h, if isLast then "last_bullet_point" else "bullet_points", some "•"⟩]

/-- Spec-side directives of one highlight bullet row: elevated bottom
padding (5) on the last bullet, normal bottom padding (0) on every
other bullet, top padding 1, and the spanning directive. -/
def specBulletStyles (ri : Nat) (isLast : Bool) : List Directive :=
  [⟨"BOTTOMPADDING", 0, ri, -1, ri, [if isLast then "5" else "0"]⟩,
   ⟨"TOPPADDING", 0, ri, -1, ri, ["1"]⟩,
   ⟨"SPAN", 0, ri, 1, ri, []⟩]

/-- Spec-side rows of a whole highlight list (last one marked). -/
def specBulletRows : List String → List Row
  | [] => []
  | [h] => [specBulletRow h true]
  | h :: h2 :: rest => specBulletRow h false :: specBulletRows (h2 :: rest)

/-- Spec-side directives of a whole highlight list starting at `ri`. -/
def specBulletStylesList (ri : Nat) : List String → List Directive
  | [] => []
  | [_] => specBulletStyles ri true
  | _ :: h2 :: rest =>
    specBulletStyles ri false ++ specBulletStylesList (ri + 1) (h2 :: rest)

theorem addHighlightRows_closed :
    ∀ (hls : List String) (s : TState) (ri i total : Nat),
      total = i + hls.length →
      addHighlightRows s ri total i hls
        = (⟨s.tableData ++ specBulletRows hls,
            s.tableStyles ++ specBulletStylesList ri hls⟩, ri + hls.length) := by
  intro hls
  induction hls with
  | nil =>
    intro s ri i total htot
    simp [addHighlightRows, specBulletRows, specBulletStylesList]
  | cons h rest ih =>
    intro s ri i total htot
    match rest with
    | [] =>
      have hc : i = total - 1 := by simp at htot; omega
      rw [addHighlightRows_cons, if_pos hc, if_pos hc, addTableRow_snd]
      rw [addHighlightRows]
      simp [addTableRow, specBulletRows, specBulletRow, specBulletStylesList,
        specBulletStyles, show toString (5 : Nat) = "5" from rfl,
        show toString (1 : Nat) = "1" from rfl]
    | h2 :: rest' =>
      have hc : ¬ i = total - 1 := by simp at htot; omega
      rw [addHighlightRows_cons, if_neg hc, if_neg hc, addTableRow_snd]
      rw [ih _ (ri + 1) (i + 1) total (by simp at htot ⊢; omega)]
      simp [addTableRow, specBulletRows, specBulletRow, specBulletStylesList,
        specBulletStyles, show toString (0 : Nat) = "0" from rfl,
        show toString (1 : Nat) = "1" from rfl, List.append_assoc]
      omega

/-- Claim C6: for a job with a non-empty highlight list the rows emitted
by the highlight loop are exactly the spec-side rows and directives —
the last highlight row carries the `last_bullet_point` style and the
elevated bottom padding 5, every non-last highlight row carries
`bullet_points` and bottom padding 0 (with one highlight, that single
row is the elevated one). -/
theorem highlightRows_last_padding (s : TState) (ri : Nat)
    (hls : List String) (_h : hls ≠ []) :
    addHighlightRows s ri hls.length 0 hls
      = (⟨s.tableData ++ specBulletRows hls,
          s.tableStyles ++ specBulletStylesList ri hls⟩, ri + hls.length) :=
  addHighlightRows_closed hls s ri 0 hls.length (by omega)

/-- Claim C6, witness: jobs with 1, 2 and 5 highlights. -/
theorem highlightRows_last_padding_witness :
    (addHighlightRows ⟨[], []⟩ 0 ["a"].length 0 ["a"]
        = (⟨[] ++ specBulletRows ["a"],
            [] ++ specBulletStylesList 0 ["a"]⟩, 0 + ["a"].length)) ∧
      (addHighlightRows ⟨[], []⟩ 0 ["a", "b"].length 0 ["a", "b"]
        = (⟨[] ++ specBulletRows ["a", "b"],
            [] ++ specBulletStylesList 0 ["a", "b"]⟩, 0 + ["a", "b"].length)) ∧
      (addHighlightRows ⟨[], []⟩ 0 ["a", "b", "c", "d", "e"].length 0
          ["a", "b", "c", "d", "e"]
        = (⟨[] ++ specBulletRows ["a", "b", "c", "d", "e"],
            [] ++ specBulletStylesList 0 ["a", "b", "c", "d", "e"]⟩,
          0 + ["a", "b", "c", "d", "e"].length)) :=
  ⟨highlightRows_last_padding ⟨[], []⟩ 0 ["a"] (by decide),
    highlightRows_last_padding ⟨[], []⟩ 0 ["a", "b"] (by decide),
    highlightRows_last_padding ⟨[], []⟩ 0 ["a", "b", "c", "d", "e"]
      (by decide)⟩

/-- Claim C8, witness: two runs on the same concrete record. -/
theorem generateResume_deterministic_witness :
    (theOk (generateResume "out" wRecord)).1.tableData
        = (theOk (generateResume "out" wRecord)).1.tableData ∧
      (theOk (generateResume "out" wRecord)).1.tableStyles
        = (theOk (generateResume "out" wRecord)).1.tableStyles :=
  generateResume_deterministic "out" wRecord wRecord rfl
    (theOk (generateResume "out" wRecord)) (theOk (generateResume "out" wRecord))
    rfl rfl

end ResumeGen
